import Mathlib

/-!
# Query-serving core of the analytics runtime: filter compiler, identifier
quoting, connection gate and numeric-histogram bucket decision

Shallow embedding of

* `runtime/queries/metricsview.go` (metrics-view filter compiler),
* `runtime/server/queries_columns.go` (`quoteName`, profiler SQL text),
* `runtime/drivers/duckdb/duckdb.go` (`acquireMetaConn`, `acquireOLAPConn`),
* `runtime/queries/column_numeric_histogram.go` (`calculateBucketSize`, `Resolve`).

Go strings are carried as Lean strings, Go slices as lists (a slice that may be
`nil` as an `Option` of a list), Go `error` results as `Except`.
-/

namespace queries

/-! ## Data model of the filter compiler -/

/-- The kinds of a `structpb.Value`. A number is a float64 in Go and is carried
here as a rational; the payloads of struct and list values are never inspected
by the filter compiler and are left out. -/
inductive Value where
  | NullValue
  | NumberValue (x : ℚ)
  | StringValue (s : String)
  | BoolValue (b : Bool)
  | StructValue
  | ListValue
  deriving DecidableEq, Repr

/-- A Go value of interface type `any`, as it is placed in the argument list of
a parameterised statement. -/
inductive GoAny where
  | nil
  | number (x : ℚ)
  | string (s : String)
  | bool (b : Bool)
  | other
  deriving DecidableEq, Repr

/-- The message `runtimev1.MetricsViewFilter_Cond`. -/
structure MetricsViewFilter_Cond where
  Name : String
  In : List Value
  Like : List String
  deriving DecidableEq, Repr

/-- The message `runtimev1.MetricsViewFilter`; `none` is a nil slice. -/
structure MetricsViewFilter where
  Include : Option (List MetricsViewFilter_Cond)
  Exclude : Option (List MetricsViewFilter_Cond)
  deriving DecidableEq, Repr

/-- Test `val.Kind.(*structpb.Value_NullValue)` of the source. -/
def Value.isNull : Value → Bool
  | .NullValue => true
  | _ => false

/-- The identifier with every double quote (character 34) doubled. -/
def escapeQuotes (id : String) : String :=
  String.join (id.data.map (fun c => if c = Char.ofNat 34 then "\"\"" else String.singleton c))

/-- Modelled from the spec: `safeName` of package `queries` is called by the
sources but its body is not among them. The spec: it wraps the identifier in
double quotes, escaping embedded quotes by doubling. -/
def safeName (id : String) : String :=
  "\"" ++ escapeQuotes id ++ "\""

/-- Modelled from the spec: `pbutil.FromValue` is called by the sources but its
body is not among them. The spec names it a value-conversion facility between the
transport value union and native values, which may fail; here scalars convert
to themselves and struct and list values are refused. -/
def fromValueScalar : Value → Except String GoAny
  | .NullValue => .ok .nil
  | .NumberValue x => .ok (.number x)
  | .StringValue s => .ok (.string s)
  | .BoolValue b => .ok (.bool b)
  | .StructValue => .error "unsupported value kind"
  | .ListValue => .error "unsupported value kind"

/-- The function `repeatString` of the source. -/
def repeatString (val : String) (n : Nat) : List String :=
  List.replicate n val

/-- The loop over `cond.In` of `buildFilterClauseForCondition`: nulls set the
flag and are skipped, every other value is converted and appended to `args`;
a failed conversion ends the whole call with a wrapped error. -/
def collectIn (fromValue : Value → Except String GoAny) :
    List Value → Bool → List GoAny → Except String (Bool × List GoAny)
  | [], inHasNull, args => .ok (inHasNull, args)
  | val :: rest, inHasNull, args =>
    if val.isNull then collectIn fromValue rest true args
    else
      match fromValue val with
      | .error e => .error ("filter error: " ++ e)
      | .ok arg => collectIn fromValue rest inHasNull (args ++ [arg])

/-- The function `buildFilterClauseForCondition` of the source; `name` is the
function that the source calls `safeName`, `fromValue` is `pbutil.FromValue`. -/
def buildFilterClauseForCondition (name : String → String)
    (fromValue : Value → Except String GoAny)
    (cond : MetricsViewFilter_Cond) (exclude : Bool) : Except String (String × List GoAny) :=
  let n := name cond.Name
  let notKeyword := if exclude then "NOT" else ""
  -- Build "dim [NOT] IN (?, ?, ...)" clause
  match (if cond.In.length > 0 then collectIn fromValue cond.In false [] else .ok (false, [])) with
  | .error e => .error e
  | .ok (inHasNull, inArgs) =>
    let clauses : List String :=
      if cond.In.length > 0 ∧ inArgs.length > 0 then
        [n ++ " " ++ notKeyword ++ " IN (" ++ ",".intercalate (repeatString "?" inArgs.length) ++ ")"]
      else []
    -- Build "dim [NOT] ILIKE ?"
    let args := inArgs ++ cond.Like.map GoAny.string
    let clauses := clauses ++ cond.Like.map (fun _ => n ++ " " ++ notKeyword ++ " ILIKE ?")
    -- Add null check
    let clauses := if inHasNull then clauses ++ [n ++ " IS " ++ notKeyword ++ " NULL"] else clauses
    -- If no checks were added, exit
    if clauses.length = 0 then .ok ("", [])
    else
      let condJoiner := if exclude then " AND " else " OR "
      let condsClause := condJoiner.intercalate clauses
      let condsClause :=
        if exclude ∧ ¬ inHasNull ∧ condsClause.length > 0 then condsClause ++ " OR " ++ n ++ " IS NULL"
        else condsClause
      .ok ("AND (" ++ condsClause ++ ") ", args)

/-- The loop of `buildFilterClauseForConditions`: the clauses and arguments
collected so far are threaded through; an empty condition clause is skipped. -/
def condsLoop (name : String → String) (fromValue : Value → Except String GoAny)
    (exclude : Bool) :
    List MetricsViewFilter_Cond → List String → List GoAny → Except String (List String × List GoAny)
  | [], clauses, args => .ok (clauses, args)
  | cond :: rest, clauses, args =>
    match buildFilterClauseForCondition name fromValue cond exclude with
    | .error e => .error e
    | .ok (condClause, condArgs) =>
      if condClause = "" then condsLoop name fromValue exclude rest clauses args
      else condsLoop name fromValue exclude rest (clauses ++ [condClause]) (args ++ condArgs)

/-- The function `buildFilterClauseForConditions` of the source. -/
def buildFilterClauseForConditions (name : String → String)
    (fromValue : Value → Except String GoAny)
    (conds : List MetricsViewFilter_Cond) (exclude : Bool) : Except String (String × List GoAny) :=
  match condsLoop name fromValue exclude conds [] [] with
  | .error e => .error e
  | .ok (clauses, args) => .ok (" ".intercalate clauses, args)

/-- The function `buildFilterClauseForMetricsViewFilter` of the source; the
argument `none` is a nil filter. -/
def buildFilterClauseForMetricsViewFilter (name : String → String)
    (fromValue : Value → Except String GoAny)
    (filter : Option MetricsViewFilter) : Except String (String × List GoAny) :=
  let inc : Except String (List String × List GoAny) :=
    match filter.bind (fun f => f.Include) with
    | none => .ok ([], [])
    | some conds =>
      match buildFilterClauseForConditions name fromValue conds false with
      | .error e => .error e
      | .ok (clause, clauseArgs) => .ok ([clause], clauseArgs)
  match inc with
  | .error e => .error e
  | .ok (clauses, args) =>
    match filter.bind (fun f => f.Exclude) with
    | none => .ok (" ".intercalate clauses, args)
    | some conds =>
      match buildFilterClauseForConditions name fromValue conds true with
      | .error e => .error e
      | .ok (clause, clauseArgs) => .ok (" ".intercalate (clauses ++ [clause]), args ++ clauseArgs)

/-- The conditions of a filter, include list first; a nil filter and nil lists
have none. -/
def allConds (filter : Option MetricsViewFilter) : List MetricsViewFilter_Cond :=
  ((filter.bind (fun f => f.Include)).getD []) ++ ((filter.bind (fun f => f.Exclude)).getD [])

/-- Number of question-mark characters of a string. -/
def countPlaceholders (s : String) : Nat :=
  s.data.count '?'

/-- Whether `t` occurs in `s` as a contiguous substring. -/
def containsSubstr (s t : String) : Bool :=
  s.data.tails.any (fun u => t.data.isPrefixOf u)

/-! ## The numeric histogram query: float64 values, bucket decision, `Resolve` -/

/-- A float64 with rounding idealised away: a finite number of an ordered
field `R`, an infinity with its sign, or NaN. The two zeros of IEEE 754 are
not told apart (zero is the positive zero). -/
inductive F64 (R : Type) where
  | fin (x : R)
  | inf (negative : Bool)
  | nan
  deriving DecidableEq, Repr

section Float

variable {R : Type} [LinearOrderedField R] [FloorRing R]

/-- Go `x * y` on float64. -/
def F64.mul : F64 R → F64 R → F64 R
  | .fin x, .fin y => .fin (x * y)
  | .fin x, .inf s => if x = 0 then .nan else .inf (xor s (decide (x < 0)))
  | .inf s, .fin y => if y = 0 then .nan else .inf (xor s (decide (y < 0)))
  | .inf s, .inf t => .inf (xor s t)
  | _, _ => .nan

/-- Go `x / y` on float64: a finite non-zero number over zero is an infinity,
zero over zero and infinity over infinity are NaN. -/
def F64.div : F64 R → F64 R → F64 R
  | .fin x, .fin y =>
    if y = 0 then (if x = 0 then .nan else .inf (decide (x < 0))) else .fin (x / y)
  | .fin _, .inf _ => .fin 0
  | .inf s, .fin y => .inf (xor s (decide (y < 0)))
  | _, _ => .nan

/-- Go `math.Ceil`. -/
def F64.ceil : F64 R → F64 R
  | .fin x => .fin (⌈x⌉ : ℤ)
  | x => x

/-- Go `math.Cbrt`, given the cube root on finite numbers. -/
def F64.cbrt (cbrt : R → R) : F64 R → F64 R
  | .fin x => .fin (cbrt x)
  | x => x

/-- Go `math.Min`: negative infinity wins, then NaN. -/
def F64.min : F64 R → F64 R → F64 R
  | .inf true, _ => .inf true
  | _, .inf true => .inf true
  | .nan, _ => .nan
  | _, .nan => .nan
  | .inf false, y => y
  | x, .inf false => x
  | .fin x, .fin y => .fin (Min.min x y)

/-- Go `x < y` on float64. -/
def F64.lt : F64 R → F64 R → Bool
  | .fin x, .fin y => decide (x < y)
  | .fin _, .inf s => !s
  | .inf s, .fin _ => s
  | .inf s, .inf t => s && !t
  | _, _ => false

/-- Go `x == y` on float64. -/
def F64.eq : F64 R → F64 R → Bool
  | .fin x, .fin y => decide (x = y)
  | .inf s, .inf t => s == t
  | _, _ => false

end Float

/-- Go `sql.NullFloat64`. -/
structure NullFloat64 (R : Type) where
  Float64 : F64 R
  Valid : Bool
  deriving DecidableEq, Repr

/-- The three variables `iqr`, `count`, `rangeVal` of `calculateBucketSize`. -/
structure Phase1 (R : Type) where
  iqr : NullFloat64 R
  count : F64 R
  rangeVal : NullFloat64 R
  deriving DecidableEq, Repr

/-- The message `runtimev1.NumericHistogramBins_Bin`. -/
structure NumericHistogramBins_Bin (R : Type) where
  Bucket : Int
  Low : F64 R
  High : F64 R
  Count : F64 R
  deriving DecidableEq, Repr

/-- The struct `ColumnNumericHistogram`; a nil `Result` slice is `none`. -/
structure ColumnNumericHistogram (R : Type) where
  TableName : String
  ColumnName : String
  Result : Option (List (NumericHistogramBins_Bin R))
  deriving DecidableEq, Repr

/-- The SQL dialects of package `drivers`. -/
inductive Dialect where
  | DialectUnspecified
  | DialectDuckDB
  | DialectDruid
  deriving DecidableEq, Repr

/-- Errors returned by the query layer. -/
inductive QueryError where
  | driver (msg : String)
  | notAvailableForDialect (d : Dialect)
  deriving DecidableEq, Repr

/-- The struct `drivers.Statement`. -/
structure Statement where
  Query : String
  Args : List GoAny
  Priority : Int
  deriving DecidableEq, Repr

/-- An OLAP store as the histogram query uses it: its dialect, `Execute`
returning the rows of a result or an error, and `Scan` of a row into the
targets of phase 1 and into a histogram bin. The row type `ρ` is the
driver's. -/
structure OLAPStore (R ρ : Type) where
  Dialect : Dialect
  Execute : Statement → Except QueryError (List ρ)
  scanPhase1 : ρ → Except QueryError (Phase1 R)
  scanBin : ρ → Except QueryError (NumericHistogramBins_Bin R)

/-- The runtime as `Resolve` uses it: `rt.OLAP(ctx, instanceID)`. -/
structure Runtime (R ρ : Type) where
  OLAP : String → Except QueryError (OLAPStore R ρ)

section Histogram

variable {R ρ : Type} [LinearOrderedField R] [FloorRing R]

/-- Lines 72 to 86 of `calculateBucketSize`: the bucket size decided from the
scanned phase-1 variables. -/
def bucketSizeOf (cbrt : R → R) (p : Phase1 R) : F64 R :=
  if !p.iqr.Valid || !p.rangeVal.Valid || F64.eq p.rangeVal.Float64 (.fin 0) then .fin 0
  else if F64.lt p.count (.fin 40) then
    -- Use cardinality if unique count less than 40
    p.count
  else
    -- Use Freedman–Diaconis rule for calculating number of bins
    let bucketWidth := F64.div (F64.mul (.fin 2) p.iqr.Float64) (F64.cbrt cbrt p.count)
    let FDEstimatorBucketSize := F64.ceil (F64.div p.rangeVal.Float64 bucketWidth)
    F64.min (.fin 40) FDEstimatorBucketSize

/-- The phase-1 statement of `calculateBucketSize`. -/
def phase1Statement (name : String → String) (q : ColumnNumericHistogram R) (priority : Int) :
    Statement :=
  let sanitizedColumnName := name q.ColumnName
  { Query := "SELECT approx_quantile(" ++ sanitizedColumnName ++ ", 0.75)-approx_quantile("
      ++ sanitizedColumnName ++ ", 0.25) AS iqr, approx_count_distinct(" ++ sanitizedColumnName
      ++ ") AS count, max(" ++ sanitizedColumnName ++ ") - min(" ++ sanitizedColumnName
      ++ ") AS range FROM " ++ name q.TableName
    Args := []
    Priority := priority }

/-- The method `calculateBucketSize` of the source. The second component lists
the statements handed to `olap.Execute`, in order. The targets of `Scan` start
as zero values: both `sql.NullFloat64` invalid, `count` zero. -/
def calculateBucketSize (name : String → String) (cbrt : R → R)
    (q : ColumnNumericHistogram R) (olap : OLAPStore R ρ) (priority : Int) :
    Except QueryError (F64 R) × List Statement :=
  let stmt := phase1Statement name q priority
  match olap.Execute stmt with
  | .error err => (.error err, [stmt])
  | .ok rows =>
    let zero : Phase1 R :=
      { iqr := { Float64 := .fin 0, Valid := false }, count := .fin 0,
        rangeVal := { Float64 := .fin 0, Valid := false } }
    let scanned : Except QueryError (Phase1 R) :=
      match rows with
      | [] => .ok zero
      | row :: _ => olap.scanPhase1 row
    match scanned with
    | .error err => (.error err, [stmt])
    | .ok p => (.ok (bucketSizeOf cbrt p), [stmt])

/-- The histogram statement of `Resolve`; `fmtFloat` is the `%v` formatting of
a float64. -/
def histogramStatement (name : String → String) (fmtFloat : F64 R → String)
    (q : ColumnNumericHistogram R) (bucketSize : F64 R) (priority : Int) : Statement :=
  let sanitizedColumnName := name q.ColumnName
  let selectColumn := sanitizedColumnName ++ "::DOUBLE"
  let table := name q.TableName
  let b := fmtFloat bucketSize
  { Query :=
      "\n          WITH data_table AS (\n"
      ++ "            SELECT " ++ selectColumn ++ " as " ++ sanitizedColumnName ++ " \n"
      ++ "            FROM " ++ table ++ "\n"
      ++ "            WHERE " ++ sanitizedColumnName ++ " IS NOT NULL\n"
      ++ "          ), S AS (\n"
      ++ "            SELECT \n"
      ++ "              min(" ++ sanitizedColumnName ++ ") as minVal,\n"
      ++ "              max(" ++ sanitizedColumnName ++ ") as maxVal,\n"
      ++ "              (max(" ++ sanitizedColumnName ++ ") - min(" ++ sanitizedColumnName ++ ")) as range\n"
      ++ "              FROM data_table\n"
      ++ "          ), values AS (\n"
      ++ "            SELECT " ++ sanitizedColumnName ++ " as value from data_table\n"
      ++ "            WHERE " ++ sanitizedColumnName ++ " IS NOT NULL\n"
      ++ "          ), buckets AS (\n"
      ++ "            SELECT\n"
      ++ "              range as bucket,\n"
      ++ "              (range) * (select range FROM S) / " ++ b ++ " + (select minVal from S) as low,\n"
      ++ "              (range + 1) * (select range FROM S) / " ++ b ++ " + (select minVal from S) as high\n"
      ++ "            FROM range(0, " ++ b ++ ", 1)\n"
      ++ "          ),\n"
      ++ "          -- bin the values\n"
      ++ "          binned_data AS (\n"
      ++ "            SELECT \n"
      ++ "              FLOOR((value - (select minVal from S)) / (select range from S) * " ++ b ++ ") as bucket\n"
      ++ "            from values\n"
      ++ "          ),\n"
      ++ "          -- join the bucket set with the binned values to generate the histogram\n"
      ++ "          histogram_stage AS (\n"
      ++ "          SELECT\n"
      ++ "              buckets.bucket,\n"
      ++ "              low,\n"
      ++ "              high,\n"
      ++ "              SUM(CASE WHEN binned_data.bucket = buckets.bucket THEN 1 ELSE 0 END) as count\n"
      ++ "            FROM buckets\n"
      ++ "            LEFT JOIN binned_data ON binned_data.bucket = buckets.bucket\n"
      ++ "            GROUP BY buckets.bucket, low, high\n"
      ++ "            ORDER BY buckets.bucket\n"
      ++ "          ),\n"
      ++ "          -- calculate the right edge, sine in histogram_stage we don't look at the values that\n"
      ++ "          -- might be the largest.\n"
      ++ "          right_edge AS (\n"
      ++ "            SELECT count(*) as c from values WHERE value = (select maxVal from S)\n"
      ++ "          )\n"
      ++ "          SELECT \n"
      ++ "            bucket,\n"
      ++ "            low,\n"
      ++ "            high,\n"
      ++ "            -- fill in the case where we've filtered out the highest value and need to recompute it, otherwise use count.\n"
      ++ "            CASE WHEN high = (SELECT max(high) from histogram_stage) THEN count + (select c from right_edge) ELSE count END AS count\n"
      ++ "            FROM histogram_stage\n"
      ++ "\t      "
    Args := []
    Priority := priority }

/-- The loop of `Resolve` over the histogram rows: every row is scanned into a
fresh bin and appended; a failed scan ends the call with its error. -/
def scanBins (olap : OLAPStore R ρ) :
    List ρ → List (NumericHistogramBins_Bin R) → Except QueryError (List (NumericHistogramBins_Bin R))
  | [], histogramBins => .ok histogramBins
  | row :: rest, histogramBins =>
    match olap.scanBin row with
    | .error err => .error err
    | .ok bin => scanBins olap rest (histogramBins ++ [bin])

/-- The method `Resolve` of the source. It returns the error (`none` is nil),
the query with its `Result` field as the call leaves it, and the statements
handed to `olap.Execute`, in order. -/
def Resolve (name : String → String) (cbrt : R → R) (fmtFloat : F64 R → String)
    (q : ColumnNumericHistogram R) (rt : Runtime R ρ) (instanceID : String) (priority : Int) :
    Option QueryError × ColumnNumericHistogram R × List Statement :=
  match rt.OLAP instanceID with
  | .error err => (some err, q, [])
  | .ok olap =>
    if olap.Dialect ≠ Dialect.DialectDuckDB then
      (some (.notAvailableForDialect olap.Dialect), q, [])
    else
      match calculateBucketSize name cbrt q olap priority with
      | (.error err, log) => (some err, q, log)
      | (.ok bucketSize, log) =>
        if F64.eq bucketSize (.fin 0) then (none, q, log)
        else
          let stmt := histogramStatement name fmtFloat q bucketSize priority
          match olap.Execute stmt with
          | .error err => (some err, q, log ++ [stmt])
          | .ok histogramRows =>
            match scanBins olap histogramRows [] with
            | .error err => (some err, q, log ++ [stmt])
            | .ok histogramBins => (none, { q with Result := some histogramBins }, log ++ [stmt])

end Histogram

end queries

/-! ## The connection gate of the DuckDB driver -/

namespace duckdb

/-- Errors returned by the gate and the pool. -/
inductive GateError where
  | ctxDone
  | connDone
  | driver (msg : String)
  deriving DecidableEq, Repr

/-- A pooled connection handle (`*sqlx.Conn`), told apart by a number. -/
abbrev Conn := Nat

/-- The request context as the gate reads it: the connection that
`connFromContext` finds (`none` is nil) and `ctx.Err()` (`none` while the
context is live). -/
structure Context where
  conn : Option Conn
  err : Option GateError
  deriving DecidableEq, Repr

/-- The semaphore `semaphore.Weighted` of `golang.org/x/sync`: its size and
the number of units held. -/
structure Weighted where
  size : Nat
  cur : Nat
  deriving DecidableEq, Repr

/-- Modelled from the spec: `priorityqueue.Semaphore` is used by the sources
but is not among them. The spec: a weighted semaphore holding `capacity` and
`in_use`, with `0 ≤ in_use ≤ capacity`. -/
structure Semaphore where
  capacity : Nat
  inUse : Nat
  deriving DecidableEq, Repr

/-- The pool `*sqlx.DB`: the connections handed out and not yet closed. -/
structure DB where
  handedOut : List Conn
  deriving DecidableEq, Repr

/-- The struct `connection` of the source (the logger left out). -/
structure connection where
  db : DB
  metaSem : Weighted
  olapSem : Semaphore
  deriving DecidableEq, Repr

/-- What a call does: it returns a value and leaves the gate in a state, or
it blocks (no other goroutine runs in this model, so a wait that nothing ends
never returns), or it panics. -/
inductive Outcome (α : Type) where
  | returns (a : α) (c : connection)
  | blocks
  | panics (msg : String)
  deriving DecidableEq, Repr

/-- The call `Weighted.Acquire(ctx, n)`: with `n` units free they are taken;
otherwise the call waits, and a done context ends the wait with its error and
no unit taken. `none` is a wait that does not end. -/
def Weighted.Acquire (ctx : Context) (n : Nat) (s : Weighted) :
    Option (Except GateError Weighted) :=
  if n ≤ s.size - s.cur then some (.ok { s with cur := s.cur + n })
  else
    match ctx.err with
    | some err => some (.error err)
    | none => none

/-- The call `Weighted.Release(n)`: it panics when more is released than is
held. -/
def Weighted.Release (n : Nat) (s : Weighted) : Except String Weighted :=
  if s.cur < n then .error "semaphore: released more than held"
  else .ok { s with cur := s.cur - n }

/-- Modelled from the spec: `acquire(ctx, priority)` of the priority semaphore
blocks until one unit is available; it returns `Cancelled` iff the context is
cancelled before admission, and then no permit is consumed. With no other
waiter the priority plays no part. `none` is a wait that does not end. -/
def Semaphore.Acquire (ctx : Context) (_priority : Int) (s : Semaphore) :
    Option (Except GateError Semaphore) :=
  if s.inUse < s.capacity then some (.ok { s with inUse := s.inUse + 1 })
  else
    match ctx.err with
    | some err => some (.error err)
    | none => none

/-- Modelled from the spec: `release()` of the priority semaphore returns one
unit; a release without a matching acquire is a programmer error, which aborts. -/
def Semaphore.Release (s : Semaphore) : Except String Semaphore :=
  if s.inUse = 0 then .error "release without acquire"
  else .ok { s with inUse := s.inUse - 1 }

/-- The call `conn.Close()`: a connection that is handed out goes back to the
pool; closing it again returns `sql.ErrConnDone`. -/
def DB.Close (conn : Conn) (db : DB) : Option GateError × DB :=
  if conn ∈ db.handedOut then (none, { db with handedOut := db.handedOut.erase conn })
  else (some .connDone, db)

/-- The call `c.db.Connx(ctx)`: `dial` is what the pool answers, a connection
or an error; a connection it answers is handed out. -/
def DB.Connx (dial : Except GateError Conn) (db : DB) : Except GateError Conn × DB :=
  match dial with
  | .error err => (.error err, db)
  | .ok conn => (.ok conn, { db with handedOut := conn :: db.handedOut })

/-- The release function that an acquire call returns: the no-op closure of
the context path, or the closure over `conn` that closes it and releases the
semaphore of its lane. -/
inductive ReleaseFunc where
  | noop
  | metaRelease (conn : Conn)
  | olapRelease (conn : Conn)
  deriving DecidableEq, Repr

/-- One invocation of a release function: `conn.Close()`, then the release of
the semaphore, and the error of `Close` is returned. -/
def ReleaseFunc.call : ReleaseFunc → connection → Outcome (Option GateError)
  | .noop, c => .returns none c
  | .metaRelease conn, c =>
    let (err, db) := c.db.Close conn
    match c.metaSem.Release 1 with
    | .error msg => .panics msg
    | .ok sem => .returns err { c with db := db, metaSem := sem }
  | .olapRelease conn, c =>
    let (err, db) := c.db.Close conn
    match c.olapSem.Release with
    | .error msg => .panics msg
    | .ok sem => .returns err { c with db := db, olapSem := sem }

/-- The three results of an acquire call: connection, release function,
error (`none` is nil). -/
structure Acquired where
  conn : Option Conn
  release : Option ReleaseFunc
  err : Option GateError
  deriving DecidableEq, Repr

/-- The method `acquireMetaConn` of the source. -/
def acquireMetaConn (ctx : Context) (dial : Except GateError Conn) (c : connection) :
    Outcome Acquired :=
  -- Try to get conn from context (means the call is wrapped in WithConnection)
  match ctx.conn with
  | some conn => .returns { conn := some conn, release := some .noop, err := none } c
  | none =>
    -- Acquire semaphore
    match c.metaSem.Acquire ctx 1 with
    | none => .blocks
    | some (.error err) => .returns { conn := none, release := none, err := some err } c
    | some (.ok sem) =>
      let c := { c with metaSem := sem }
      -- Get new conn
      match c.db.Connx dial with
      | (.error err, db) =>
        match c.metaSem.Release 1 with
        | .error msg => .panics msg
        | .ok sem => .returns { conn := none, release := none, err := some err }
            { c with db := db, metaSem := sem }
      | (.ok conn, db) =>
        -- Build release func
        .returns { conn := some conn, release := some (.metaRelease conn), err := none }
          { c with db := db }

/-- The method `acquireOLAPConn` of the source. -/
def acquireOLAPConn (ctx : Context) (priority : Int) (dial : Except GateError Conn)
    (c : connection) : Outcome Acquired :=
  -- Try to get conn from context (means the call is wrapped in WithConnection)
  match ctx.conn with
  | some conn => .returns { conn := some conn, release := some .noop, err := none } c
  | none =>
    -- Acquire semaphore
    match c.olapSem.Acquire ctx priority with
    | none => .blocks
    | some (.error err) => .returns { conn := none, release := none, err := some err } c
    | some (.ok sem) =>
      let c := { c with olapSem := sem }
      -- Get new conn
      match c.db.Connx dial with
      | (.error err, db) =>
        match c.olapSem.Release with
        | .error msg => .panics msg
        | .ok sem => .returns { conn := none, release := none, err := some err }
            { c with db := db, olapSem := sem }
      | (.ok conn, db) =>
        -- Build release func
        .returns { conn := some conn, release := some (.olapRelease conn), err := none }
          { c with db := db }

end duckdb

/-! ## Profiler handlers of the RPC server: identifier quoting -/

namespace server

/-- The function `quoteName` of the source. -/
def quoteName (columnName : String) : String :=
  "\"" ++ columnName ++ "\""

/-- The statement text that `Server.GetNullCount` builds from the request. -/
def nullCountSql (TableName ColumnName : String) : String :=
  "SELECT count(*) as count from " ++ TableName ++ " WHERE " ++ quoteName ColumnName ++ " IS NULL"

/-- The statement text that `Server.GetCardinalityOfColumn` builds from the
request. -/
def cardinalitySql (TableName ColumnName : String) : String :=
  let sanitizedColumnName := quoteName ColumnName
  "SELECT approx_count_distinct(" ++ sanitizedColumnName ++ ") as count from " ++ TableName

end server

/-! ## The numeric histogram query: cache key and result marshalling -/

deriving instance DecidableEq for Except

namespace queries

/-- The method `Key` of `ColumnNumericHistogram`. -/
def ColumnNumericHistogram.Key {R : Type} (q : ColumnNumericHistogram R) : String :=
  "ColumnNumericHistogram:" ++ q.TableName ++ ":" ++ q.ColumnName

/-- The method `Deps` of `ColumnNumericHistogram`. -/
def ColumnNumericHistogram.Deps {R : Type} (q : ColumnNumericHistogram R) : List String :=
  [q.TableName]

/-- A Go value of interface type `any` as `MarshalResult` returns it and
`UnmarshalResult` receives it: a slice of histogram bins (possibly the nil
slice), or a value of any other dynamic type. -/
inductive ResultAny (R : Type) where
  | bins (res : Option (List (NumericHistogramBins_Bin R)))
  | other (v : GoAny)
  deriving DecidableEq, Repr

/-- The method `MarshalResult` of `ColumnNumericHistogram`. -/
def ColumnNumericHistogram.MarshalResult {R : Type} (q : ColumnNumericHistogram R) :
    ResultAny R :=
  .bins q.Result

/-- The method `UnmarshalResult` of `ColumnNumericHistogram`: the error
(`none` is nil) and the query as the call leaves it. -/
def ColumnNumericHistogram.UnmarshalResult {R : Type} (q : ColumnNumericHistogram R)
    (v : ResultAny R) : Option String × ColumnNumericHistogram R :=
  match v with
  | .bins res => (none, { q with Result := res })
  | .other _ => (some "ColumnNumericHistogram: mismatched unmarshal input", q)

end queries

/-! ## Package `arrayutil` -/

namespace arrayutil

/-- The loop of `Dedupe`: `dedupeMap` is carried as the list of its keys, and
`deduped` grows at its end. -/
def dedupeLoop {E : Type} [DecidableEq E] : List E → List E → List E → List E
  | [], _, deduped => deduped
  | e :: rest, dedupeMap, deduped =>
    if e ∈ dedupeMap then dedupeLoop rest dedupeMap deduped
    else dedupeLoop rest (e :: dedupeMap) (deduped ++ [e])

/-- The function `Dedupe` of the source. -/
def Dedupe {E : Type} [DecidableEq E] (array : List E) : List E :=
  dedupeLoop array [] []

/-- The function `Contains` of the source. -/
def Contains {E : Type} [DecidableEq E] : List E → E → Bool
  | [], _ => false
  | e :: rest, c => if e = c then true else Contains rest c

/-- The distinct elements of a list in order of first occurrence, by
recursion: the head, then the distinct elements of the tail other than the
head. -/
def firstOccurrences {E : Type} [DecidableEq E] : List E → List E
  | [] => []
  | x :: xs => x :: (firstOccurrences xs).filter (fun e => e ≠ x)

end arrayutil

/-! ## Profiler handlers of the RPC server: time grain, interval, histogram -/

namespace server

/-- The enum `runtimev1.TimeGrain`. -/
inductive TimeGrain where
  | TIME_GRAIN_UNSPECIFIED
  | TIME_GRAIN_MILLISECOND
  | TIME_GRAIN_SECOND
  | TIME_GRAIN_MINUTE
  | TIME_GRAIN_HOUR
  | TIME_GRAIN_DAY
  | TIME_GRAIN_WEEK
  | TIME_GRAIN_MONTH
  | TIME_GRAIN_YEAR
  deriving DecidableEq, Repr

/-- The one row of the CTE `time_grains` of `estimateSql`: the approximate
distinct counts, and `lastdayofmonth`, which is NULL (`none`) over no rows. -/
structure TimeGrains where
  year : Int
  month : Int
  dayofyear : Int
  dayofmonth : Int
  lastdayofmonth : Option Bool
  weekofyear : Int
  dayofweek : Int
  hour : Int
  minute : Int
  second : Int
  ms : Int
  deriving DecidableEq, Repr

/-- SQL `a OR b` in three-valued logic. -/
def sqlOr : Option Bool → Option Bool → Option Bool
  | some true, _ => some true
  | _, some true => some true
  | some false, some false => some false
  | _, _ => none

/-- SQL `a AND b` in three-valued logic. -/
def sqlAnd : Option Bool → Option Bool → Option Bool
  | some false, _ => some false
  | _, some false => some false
  | some true, some true => some true
  | _, _ => none

/-- SQL `CASE WHEN c THEN v ELSE NULL END`. -/
def caseWhen (c : Option Bool) (v : String) : Option String :=
  if c = some true then some v else none

/-- SQL `COALESCE`. -/
def coalesce : List (Option String) → Option String
  | [] => none
  | some v :: _ => some v
  | none :: rest => coalesce rest

/-- The final `SELECT` of `estimateSql` over the row of `time_grains`. -/
def estimatedSmallestTimeGrain (t : TimeGrains) : Option String :=
  coalesce
    [ caseWhen (some (decide (t.ms > 1))) "milliseconds",
      caseWhen (some (decide (t.second > 1))) "seconds",
      caseWhen (some (decide (t.minute > 1))) "minutes",
      caseWhen (some (decide (t.hour > 1))) "hours",
      caseWhen (sqlAnd (some (decide (t.dayofyear = 1))) (some (decide (t.year > 1)))) "years",
      caseWhen (sqlAnd (sqlOr (some (decide (t.dayofmonth = 1))) t.lastdayofmonth)
        (some (decide (t.month > 1)))) "months",
      caseWhen (sqlAnd (some (decide (t.dayofweek = 1))) (some (decide (t.weekofyear > 1)))) "weeks",
      caseWhen (some (decide (t.hour = 1))) "days" ]

/-- Lines 230 to 279 of `Server.EstimateSmallestTimeGrain`: the loop over the
rows of the estimate query (each row scanned into a `sql.NullString`, a failed
scan given as an error) and the switch over the string. The response is its
`TimeGrain`; `.ok none` is the nil response of a string that no case
matches. -/
def timeGrainResponse : List (Except String (Option String)) → Except String (Option TimeGrain)
  | .error err :: _ => .error err
  | .ok none :: _ => .ok (some .TIME_GRAIN_UNSPECIFIED)
  | rows =>
    -- `timeGrainString.String`: the scanned string, or the zero value with no row
    let timeGrainString : String :=
      match rows with
      | .ok (some s) :: _ => s
      | _ => ""
    if timeGrainString = "milliseconds" then .ok (some .TIME_GRAIN_MILLISECOND)
    else if timeGrainString = "seconds" then .ok (some .TIME_GRAIN_SECOND)
    else if timeGrainString = "minutes" then .ok (some .TIME_GRAIN_MINUTE)
    else if timeGrainString = "hours" then .ok (some .TIME_GRAIN_HOUR)
    else if timeGrainString = "days" then .ok (some .TIME_GRAIN_DAY)
    else if timeGrainString = "weeks" then .ok (some .TIME_GRAIN_WEEK)
    else if timeGrainString = "months" then .ok (some .TIME_GRAIN_MONTH)
    else if timeGrainString = "years" then .ok (some .TIME_GRAIN_YEAR)
    else .ok none

/-- The handler `Server.EstimateSmallestTimeGrain` on a sample whose row of
`time_grains` is `t`: the estimate query returns one row, which is scanned and
classified. -/
def EstimateSmallestTimeGrain (t : TimeGrains) : Except String (Option TimeGrain) :=
  timeGrainResponse [.ok (estimatedSmallestTimeGrain t)]

/-- The rules of the spec for the smallest time grain, first match wins, with
`lastdayofmonth` a boolean. -/
def grainByFirstRule (ms second minute hour dayofyear year dayofmonth : Int) (lastdayofmonth : Bool)
    (month dayofweek weekofyear : Int) : TimeGrain :=
  if ms > 1 then .TIME_GRAIN_MILLISECOND
  else if second > 1 then .TIME_GRAIN_SECOND
  else if minute > 1 then .TIME_GRAIN_MINUTE
  else if hour > 1 then .TIME_GRAIN_HOUR
  else if dayofyear = 1 ∧ year > 1 then .TIME_GRAIN_YEAR
  else if (dayofmonth = 1 ∨ lastdayofmonth = true) ∧ month > 1 then .TIME_GRAIN_MONTH
  else if dayofweek = 1 ∧ weekofyear > 1 then .TIME_GRAIN_WEEK
  else if hour = 1 then .TIME_GRAIN_DAY
  else .TIME_GRAIN_UNSPECIFIED

/-- The struct `duckdb.Interval` of the driver: `Days` and `Months` are int32,
`Micros` is int64. -/
structure DuckdbInterval where
  Days : Int
  Months : Int
  Micros : Int
  deriving DecidableEq, Repr

/-- The message `runtimev1.TimeRangeSummary_Interval`: `Months` and `Days` are
int32, `Micros` is int64. -/
structure TimeRangeSummary_Interval where
  Months : Int
  Days : Int
  Micros : Int
  deriving DecidableEq, Repr

/-- A value of a scanned row (Go `any`) by its dynamic type. -/
inductive Scanned where
  | nil
  | Interval (i : DuckdbInterval)
  | int64 (i : Int)
  | int32 (i : Int)
  | float64 (x : ℚ)
  | string (s : String)
  | bool (b : Bool)
  | time (unixMicros : Int)
  deriving DecidableEq, Repr

/-- Go conversion `int32(i)` of an int64: the low 32 bits, signed. -/
def toInt32 (i : Int) : Int :=
  (i + 2 ^ 31) % 2 ^ 32 - 2 ^ 31

/-- The `%T` formatting of a scanned value. -/
def Scanned.typeName : Scanned → String
  | .nil => "<nil>"
  | .Interval _ => "duckdb.Interval"
  | .int64 _ => "int64"
  | .int32 _ => "int32"
  | .float64 _ => "float64"
  | .string _ => "string"
  | .bool _ => "bool"
  | .time _ => "time.Time"

/-- The function `handleInterval` of the source. -/
def handleInterval (interval : Scanned) : Except String TimeRangeSummary_Interval :=
  match interval with
  | .Interval i => .ok { Days := i.Days, Months := i.Months, Micros := i.Micros }
  | .int64 i =>
    -- for date type column interval is difference in num days for two dates
    .ok { Days := toInt32 i, Months := 0, Micros := 0 }
  | v => .error ("cannot handle interval type " ++ v.typeName)

end server


namespace server

open queries

/-- The request message `runtimev1.GetNumericHistogramRequest`. -/
structure GetNumericHistogramRequest where
  InstanceId : String
  TableName : String
  ColumnName : String
  Priority : Int
  deriving DecidableEq, Repr

/-- The server as `GetNumericHistogram` uses it: `s.query` returning the rows
of a result or an error, and `Scan` of a row into the targets of phase 1 and
into a histogram bin. The row type `ρ` is the driver's. -/
structure Server (R ρ : Type) where
  query : String → Statement → Except QueryError (List ρ)
  scanPhase1 : ρ → Except QueryError (Phase1 R)
  scanBin : ρ → Except QueryError (NumericHistogramBins_Bin R)

/-- The text `querySql` of `GetNumericHistogram`. -/
def numericHistogramQuerySql (request : GetNumericHistogramRequest) : String :=
  let sanitizedColumnName := quoteName request.ColumnName
  "SELECT approx_quantile(" ++ sanitizedColumnName ++ ", 0.75)-approx_quantile("
    ++ sanitizedColumnName ++ ", 0.25) as IQR, approx_count_distinct(" ++ sanitizedColumnName
    ++ ") as count, max(" ++ sanitizedColumnName ++ ") - min(" ++ sanitizedColumnName
    ++ ") as range FROM " ++ request.TableName

/-- The text `histogramSql` of `GetNumericHistogram`, from its four format
arguments. -/
def histogramSql (selectColumn sanitizedColumnName table b : String) : String :=
    "\n          WITH data_table AS (\n"
    ++ "            SELECT " ++ selectColumn ++ " as " ++ sanitizedColumnName ++ " \n"
    ++ "            FROM " ++ table ++ "\n"
    ++ "            WHERE " ++ sanitizedColumnName ++ " IS NOT NULL\n"
    ++ "          ), S AS (\n"
    ++ "            SELECT \n"
    ++ "              min(" ++ sanitizedColumnName ++ ") as minVal,\n"
    ++ "              max(" ++ sanitizedColumnName ++ ") as maxVal,\n"
    ++ "              (max(" ++ sanitizedColumnName ++ ") - min(" ++ sanitizedColumnName ++ ")) as range\n"
    ++ "              FROM data_table\n"
    ++ "          ), values AS (\n"
    ++ "            SELECT " ++ sanitizedColumnName ++ " as value from data_table\n"
    ++ "            WHERE " ++ sanitizedColumnName ++ " IS NOT NULL\n"
    ++ "          ), buckets AS (\n"
    ++ "            SELECT\n"
    ++ "              range as bucket,\n"
    ++ "              (range) * (select range FROM S) / " ++ b ++ " + (select minVal from S) as low,\n"
    ++ "              (range + 1) * (select range FROM S) / " ++ b ++ " + (select minVal from S) as high\n"
    ++ "            FROM range(0, " ++ b ++ ", 1)\n"
    ++ "          ),\n"
    ++ "          -- bin the values\n"
    ++ "          binned_data AS (\n"
    ++ "            SELECT \n"
    ++ "              FLOOR((value - (select minVal from S)) / (select range from S) * " ++ b ++ ") as bucket\n"
    ++ "            from values\n"
    ++ "          ),\n"
    ++ "          -- join the bucket set with the binned values to generate the histogram\n"
    ++ "          histogram_stage AS (\n"
    ++ "          SELECT\n"
    ++ "              buckets.bucket,\n"
    ++ "              low,\n"
    ++ "              high,\n"
    ++ "              SUM(CASE WHEN binned_data.bucket = buckets.bucket THEN 1 ELSE 0 END) as count\n"
    ++ "            FROM buckets\n"
    ++ "            LEFT JOIN binned_data ON binned_data.bucket = buckets.bucket\n"
    ++ "            GROUP BY buckets.bucket, low, high\n"
    ++ "            ORDER BY buckets.bucket\n"
    ++ "          ),\n"
    ++ "          -- calculate the right edge, sine in histogram_stage we don't look at the values that\n"
    ++ "          -- might be the largest.\n"
    ++ "          right_edge AS (\n"
    ++ "            SELECT count(*) as c from values WHERE value = (select maxVal from S)\n"
    ++ "          )\n"
    ++ "          SELECT \n"
    ++ "            bucket,\n"
    ++ "            low,\n"
    ++ "            high,\n"
    ++ "            -- fill in the case where we've filtered out the highest value and need to recompute it, otherwise use count.\n"
    ++ "            CASE WHEN high = (SELECT max(high) from histogram_stage) THEN count + (select c from right_edge) ELSE count END AS count\n"
    ++ "            FROM histogram_stage\n"
    ++ "\t      "

section Handler

variable {R ρ : Type} [LinearOrderedField R] [FloorRing R]

/-- Lines 297 to 311 of `GetNumericHistogram`: the loop over the phase-1 rows.
Every row is scanned into `iqr`, `count`, `rangeVal`; a failed scan ends the
call with its error; a null `iqr` ends it with the empty response (`none`
here); otherwise the variables as the last row leaves them. -/
def phase1Loop (s : Server R ρ) : List ρ → Phase1 R → Except QueryError (Option (Phase1 R))
  | [], p => .ok (some p)
  | row :: rest, _ =>
    match s.scanPhase1 row with
    | .error err => .error err
    | .ok p => if !p.iqr.Valid then .ok none else phase1Loop s rest p

/-- Lines 312 to 321 of `GetNumericHistogram`: the bucket size decided from
the scanned phase-1 variables. -/
def handlerBucketSize (cbrt : R → R) (p : Phase1 R) : F64 R :=
  if F64.lt p.count (.fin 40) then
    -- Use cardinality if unique count less than 40
    p.count
  else
    -- Use Freedman–Diaconis rule for calculating number of bins
    let bucketWidth := F64.div (F64.mul (.fin 2) p.iqr.Float64) (F64.cbrt cbrt p.count)
    let FDEstimatorBucketSize := F64.ceil (F64.div p.rangeVal.Float64 bucketWidth)
    F64.min (.fin 40) FDEstimatorBucketSize

/-- The loop of `GetNumericHistogram` over the histogram rows. -/
def scanHistogramRows (s : Server R ρ) :
    List ρ → List (NumericHistogramBins_Bin R) → Except QueryError (List (NumericHistogramBins_Bin R))
  | [], histogramBins => .ok histogramBins
  | row :: rest, histogramBins =>
    match s.scanBin row with
    | .error err => .error err
    | .ok bin => scanHistogramRows s rest (histogramBins ++ [bin])

/-- The handler `Server.GetNumericHistogram` of the source. It returns the
error, or the `Bins` of the response (`none` is the nil slice of the empty
`NumericHistogramBins`), and the statements handed to `s.query`, in order. -/
def GetNumericHistogram (cbrt : R → R) (fmtFloat : F64 R → String) (s : Server R ρ)
    (request : GetNumericHistogramRequest) :
    Except QueryError (Option (List (NumericHistogramBins_Bin R))) × List Statement :=
  let sanitizedColumnName := quoteName request.ColumnName
  let stmt1 : Statement :=
    { Query := numericHistogramQuerySql request, Args := [], Priority := request.Priority }
  match s.query request.InstanceId stmt1 with
  | .error err => (.error err, [stmt1])
  | .ok rows =>
    let zero : Phase1 R :=
      { iqr := { Float64 := .fin 0, Valid := false }, count := .fin 0,
        rangeVal := { Float64 := .fin 0, Valid := false } }
    match phase1Loop s rows zero with
    | .error err => (.error err, [stmt1])
    | .ok none => (.ok none, [stmt1])
    | .ok (some p) =>
      let bucketSize := handlerBucketSize cbrt p
      let selectColumn := sanitizedColumnName ++ "::DOUBLE"
      let stmt2 : Statement :=
        { Query := histogramSql selectColumn sanitizedColumnName request.TableName
            (fmtFloat bucketSize)
          Args := [], Priority := request.Priority }
      match s.query request.InstanceId stmt2 with
      | .error err => (.error err, [stmt1, stmt2])
      | .ok histogramRows =>
        match scanHistogramRows s histogramRows [] with
        | .error err => (.error err, [stmt1, stmt2])
        | .ok histogramBins => (.ok (some histogramBins), [stmt1, stmt2])

end Handler

end server


/-! ## The numeric histogram query: the histogram of the CTE chain -/

namespace queries

section HistogramCTE

variable {R : Type} [LinearOrderedField R] [FloorRing R]

end HistogramCTE

end queries

/-! ## Package `models`: the SQL sanitizer -/

namespace models

end models

/-! ## The OLAP lane of the connection gate with its waiters -/

namespace duckdb

/-- Modelled from the spec: a waiter of the priority semaphore, which is not
among the sources: the task that waits in `acquireOLAPConn` and the priority
it passed. -/
structure Waiter where
  task : Nat
  priority : Int
  deriving DecidableEq, Repr

/-- Modelled from the spec: the admission rule of the priority semaphore. Of
the waiters, in arrival order, the one with maximum priority is picked, ties
broken by earliest arrival. -/
def nextWaiter : List Waiter → Option Waiter
  | [] => none
  | w :: ws =>
    match nextWaiter ws with
    | none => some w
    | some b => if b.priority > w.priority then some b else some w

/-- Modelled from the spec: the OLAP lane of the gate: the `connection` and
the callers of `acquireOLAPConn` that wait in `olapSem.Acquire`, in arrival
order. -/
structure OLAPLane where
  c : connection
  waiters : List Waiter
  deriving DecidableEq, Repr

/-- What a step of the lane does to the task named in it. -/
inductive Admission where
  | admitted (task : Nat) (a : Acquired)
  | queued (task : Nat)
  | nobody
  | fault (msg : String)
  deriving DecidableEq, Repr

/-- A task calls `acquireOLAPConn` with a live context that carries no
connection: the call returns (the task is admitted), or it blocks in
`olapSem.Acquire` and the task joins the waiters. -/
def OLAPLane.acquire (task : Nat) (priority : Int) (dial : Except GateError Conn)
    (l : OLAPLane) : Admission × OLAPLane :=
  match acquireOLAPConn { conn := none, err := none } priority dial l.c with
  | .returns a c => (.admitted task a, { l with c := c })
  | .blocks => (.queued task, { l with waiters := l.waiters ++ [{ task := task, priority := priority }] })
  | .panics msg => (.fault msg, l)

/-- Modelled from the spec: a holder calls its release function, which
returns one unit and wakes the single highest-priority waiter if any: the
woken waiter leaves the waiters and its `acquireOLAPConn` call goes on and
returns. `dial` is what the pool answers to the woken call. -/
def OLAPLane.release (conn : Conn) (dial : Except GateError Conn) (l : OLAPLane) :
    Admission × OLAPLane :=
  match (ReleaseFunc.olapRelease conn).call l.c with
  | .panics msg => (.fault msg, l)
  | .blocks => (.nobody, l)
  | .returns _ c =>
    match nextWaiter l.waiters with
    | none => (.nobody, { l with c := c })
    | some w =>
      match acquireOLAPConn { conn := none, err := none } w.priority dial c with
      | .returns a c2 => (.admitted w.task a, { c := c2, waiters := l.waiters.erase w })
      | .blocks => (.nobody, { l with c := c })
      | .panics msg => (.fault msg, { l with c := c })

end duckdb

namespace queries

theorem intercalate_go_data (s : String) (l : List String) (acc : String) :
    (String.intercalate.go acc s l).data = acc.data ++ (l.map (fun a => s.data ++ a.data)).flatten := by
  induction l generalizing acc with
  | nil => simp [String.intercalate.go]
  | cons a l ih => simp [String.intercalate.go, ih, String.data_append, List.append_assoc]

theorem intercalate_cons_data (s a : String) (l : List String) :
    (s.intercalate (a :: l)).data = a.data ++ (l.map (fun b => s.data ++ b.data)).flatten := by
  simp [String.intercalate, intercalate_go_data]

theorem intercalate_singleton (s a : String) : s.intercalate [a] = a := by
  simp [String.intercalate, String.intercalate.go]

/-- What the loop over `cond.In` returns when every non-null value converts. -/
theorem collectIn_ok (fromValue : Value → Except String GoAny) (vs : List Value)
    (b : Bool) (args as : List GoAny)
    (h : List.Forall₂ (fun v a => fromValue v = .ok a) (vs.filter (fun v => !v.isNull)) as) :
    collectIn fromValue vs b args = .ok (b || vs.any Value.isNull, args ++ as) := by
  induction vs generalizing b args as with
  | nil =>
    simp at h
    simp [collectIn, h]
  | cons v vs ih =>
    by_cases hv : v.isNull = true
    · simp [hv] at h
      simp [collectIn, hv, ih true args as h]
    · simp only [Bool.not_eq_true] at hv
      simp [hv] at h
      obtain ⟨a, as1, ha, has, rfl⟩ := List.forall₂_cons_left_iff.mp h
      simp [collectIn, hv, ha, ih b (args ++ [a]) as1 has]

end queries

namespace queries

/-- The condition compiler with the `cond.In` loop replaced by its result, for
a condition all of whose non-null values convert. -/
theorem buildFilterClauseForCondition_eq (name : String → String)
    (fromValue : Value → Except String GoAny) (cond : MetricsViewFilter_Cond) (exclude : Bool)
    (as : List GoAny)
    (hconv : List.Forall₂ (fun v a => fromValue v = .ok a)
      (cond.In.filter (fun v => !v.isNull)) as) :
    buildFilterClauseForCondition name fromValue cond exclude =
      (let n := name cond.Name
       let notKeyword := if exclude then "NOT" else ""
       let inHasNull := cond.In.any Value.isNull
       let clauses : List String :=
         (if as ≠ [] then
            [n ++ " " ++ notKeyword ++ " IN (" ++ ",".intercalate (List.replicate as.length "?") ++ ")"]
          else [])
         ++ cond.Like.map (fun _ => n ++ " " ++ notKeyword ++ " ILIKE ?")
         ++ (if inHasNull then [n ++ " IS " ++ notKeyword ++ " NULL"] else [])
       if clauses = [] then .ok ("", [])
       else
         let condsClause := (if exclude then " AND " else " OR ").intercalate clauses
         .ok ("AND (" ++ (if exclude ∧ ¬ inHasNull ∧ condsClause.length > 0 then
                 condsClause ++ " OR " ++ n ++ " IS NULL" else condsClause) ++ ") ",
              as ++ cond.Like.map GoAny.string)) := by
  unfold buildFilterClauseForCondition
  by_cases hin : cond.In.length > 0
  · have h := collectIn_ok fromValue cond.In false [] as hconv
    simp only [hin, if_true, h, Bool.false_or, List.nil_append, true_and, repeatString]
    have hlen : (as.length > 0) ↔ as ≠ [] := by
      cases as <;> simp
    by_cases hnull : cond.In.any Value.isNull = true
    · by_cases has : as = []
      · simp [hnull, has]
      · simp [hnull, has, List.length_pos.mpr has]
    · by_cases has : as = []
      · simp [hnull, has]
      · simp [hnull, has, List.length_pos.mpr has]
  · have hnil : cond.In = [] := by
      cases hc : cond.In with
      | nil => rfl
      | cons v vs => simp [hc] at hin
    simp only [hnil] at hconv ⊢
    simp at hconv
    subst hconv
    simp

end queries

namespace queries

theorem intercalate_length_pos (s a : String) (l : List String) (ha : 0 < a.length) :
    0 < (s.intercalate (a :: l)).length := by
  have h : (s.intercalate (a :: l)).length = (s.intercalate (a :: l)).data.length := rfl
  have ha2 : a.length = a.data.length := rfl
  rw [h, intercalate_cons_data, List.length_append]
  omega

theorem length_append_pos_right (a b : String) (hb : 0 < b.length) : 0 < (a ++ b).length := by
  rw [String.length_append]; omega

/-- C1 (as amended). For an include-mode condition whose `In` list holds at
least one null and at least one non-null value, all of them converting to the
arguments `as`, the compiler returns `AND (` + the clauses joined by ` OR ` +
`) ` where the clauses are one IN clause with one placeholder per non-null
value, one ILIKE clause per `Like` string and the IS NULL clause; the slot of
the absent NOT keyword leaves two blanks (`N  IN (`, `N  ILIKE ?`,
`N IS  NULL`) and the group ends in one blank. The arguments are the converted
non-null values in order, then the `Like` strings in order. For the emitted
name country this is
`AND (country  IN (?,?) OR country  ILIKE ? OR country IS  NULL) `. -/
theorem include_condition_with_null :
    (∀ (name : String → String) (fromValue : Value → Except String GoAny)
      (cond : MetricsViewFilter_Cond) (as : List GoAny),
      Value.NullValue ∈ cond.In →
      List.Forall₂ (fun v a => fromValue v = .ok a) (cond.In.filter (fun v => !v.isNull)) as →
      as ≠ [] →
      buildFilterClauseForCondition name fromValue cond false =
        .ok ("AND (" ++ " OR ".intercalate
              ([name cond.Name ++ "  IN (" ++ ",".intercalate (List.replicate as.length "?") ++ ")"]
                ++ cond.Like.map (fun _ => name cond.Name ++ "  ILIKE ?")
                ++ [name cond.Name ++ " IS  NULL"]) ++ ") ",
             as ++ cond.Like.map GoAny.string)) ∧
    buildFilterClauseForCondition (fun s => s) fromValueScalar
        { Name := "country", In := [.NullValue, .StringValue "US", .StringValue "FR"],
          Like := ["A%"] } false =
      .ok ("AND (country  IN (?,?) OR country  ILIKE ? OR country IS  NULL) ",
           [.string "US", .string "FR", .string "A%"]) := by
  refine ⟨?_, rfl⟩
  intro name fromValue cond as hnull hconv has
  rw [buildFilterClauseForCondition_eq name fromValue cond false as hconv]
  have hany : cond.In.any Value.isNull = true := by
    rw [List.any_eq_true]
    exact ⟨_, hnull, rfl⟩
  have e1 : ∀ X : String, name cond.Name ++ " " ++ " IN (" ++ X ++ ")"
      = name cond.Name ++ "  IN (" ++ X ++ ")" := by
    intro X; apply String.ext; simp [String.data_append]
  have e2 : name cond.Name ++ " " ++ " ILIKE ?" = name cond.Name ++ "  ILIKE ?" := by
    apply String.ext; simp [String.data_append]
  have e3 : name cond.Name ++ " IS " ++ " NULL" = name cond.Name ++ " IS  NULL" := by
    apply String.ext; simp [String.data_append]
  simp [hany, has, e1, e2, e3]

/-- Witness of `include_condition_with_null` at the condition of the spec
scenario, with the identity as emitted name. -/
theorem include_condition_with_null_witness :
    buildFilterClauseForCondition (fun s => s) fromValueScalar
        { Name := "country", In := [.NullValue, .StringValue "US", .StringValue "FR"],
          Like := ["A%"] } false =
      .ok ("AND (" ++ " OR ".intercalate
            (["country" ++ "  IN (" ++ ",".intercalate (List.replicate 2 "?") ++ ")"]
              ++ ["A%"].map (fun _ => "country" ++ "  ILIKE ?")
              ++ ["country" ++ " IS  NULL"]) ++ ") ",
           [GoAny.string "US", GoAny.string "FR"] ++ ["A%"].map GoAny.string) :=
  include_condition_with_null.1 (fun s => s) fromValueScalar
    { Name := "country", In := [.NullValue, .StringValue "US", .StringValue "FR"], Like := ["A%"] }
    [.string "US", .string "FR"] (by decide)
    (List.Forall₂.cons rfl (List.Forall₂.cons rfl List.Forall₂.nil)) (by decide)

/-- C1 as stated fails: for the emitted name country (and for the quoted name
of the spec) the fragment is not the claimed text and does not contain it:
the empty NOT slot leaves two blanks before IN, before ILIKE and before
NULL. -/
theorem include_condition_claimed_text_absent :
    buildFilterClauseForCondition (fun s => s) fromValueScalar
        { Name := "country", In := [.NullValue, .StringValue "US", .StringValue "FR"],
          Like := ["A%"] } false =
      .ok ("AND (country  IN (?,?) OR country  ILIKE ? OR country IS  NULL) ",
           [.string "US", .string "FR", .string "A%"]) ∧
    containsSubstr "AND (country  IN (?,?) OR country  ILIKE ? OR country IS  NULL) "
      "AND (country IN (?,?) OR country ILIKE ? OR country IS NULL)" = false ∧
    buildFilterClauseForCondition safeName fromValueScalar
        { Name := "country", In := [.NullValue, .StringValue "US", .StringValue "FR"],
          Like := ["A%"] } false =
      .ok ("AND (\"country\"  IN (?,?) OR \"country\"  ILIKE ? OR \"country\" IS  NULL) ",
           [.string "US", .string "FR", .string "A%"]) ∧
    containsSubstr "AND (\"country\"  IN (?,?) OR \"country\"  ILIKE ? OR \"country\" IS  NULL) "
      "AND (\"country\" IN (?,?) OR \"country\" ILIKE ? OR \"country\" IS NULL)" = false := by
  refine ⟨rfl, ?_, rfl, ?_⟩ <;> decide

end queries

namespace queries

/-- C2. For an exclude-mode condition all of whose non-null `In` values
convert (to `as`): when `In` holds no null and at least one clause is produced,
the compiler returns `AND (` + the NOT IN clause (if any) and the NOT ILIKE
clauses joined by ` AND ` + ` OR N IS NULL` + `)`, closed by the blank that
ends every group; when `In` holds a null, the clause `N IS NOT NULL` is
emitted as the last clause and no ` OR N IS NULL` is appended. For
exclude `x` in `[1]` with emitted name `x` the fragment is
`AND (x NOT IN (?) OR x IS NULL) `, which contains
`AND (x NOT IN (?) OR x IS NULL)`; with the name quoted by `safeName` the same
text stands with `"x"` for `x`. -/
theorem exclude_condition_null_aware :
    (∀ (name : String → String) (fromValue : Value → Except String GoAny)
      (cond : MetricsViewFilter_Cond) (as : List GoAny),
      List.Forall₂ (fun v a => fromValue v = .ok a) (cond.In.filter (fun v => !v.isNull)) as →
      Value.NullValue ∉ cond.In →
      (as ≠ [] ∨ cond.Like ≠ []) →
      buildFilterClauseForCondition name fromValue cond true =
        .ok ("AND (" ++ " AND ".intercalate
              ((if as ≠ [] then
                  [name cond.Name ++ " NOT IN (" ++ ",".intercalate (List.replicate as.length "?") ++ ")"]
                else [])
                ++ cond.Like.map (fun _ => name cond.Name ++ " NOT ILIKE ?"))
              ++ " OR " ++ name cond.Name ++ " IS NULL" ++ ") ",
             as ++ cond.Like.map GoAny.string)) ∧
    (∀ (name : String → String) (fromValue : Value → Except String GoAny)
      (cond : MetricsViewFilter_Cond) (as : List GoAny),
      List.Forall₂ (fun v a => fromValue v = .ok a) (cond.In.filter (fun v => !v.isNull)) as →
      Value.NullValue ∈ cond.In →
      buildFilterClauseForCondition name fromValue cond true =
        .ok ("AND (" ++ " AND ".intercalate
              ((if as ≠ [] then
                  [name cond.Name ++ " NOT IN (" ++ ",".intercalate (List.replicate as.length "?") ++ ")"]
                else [])
                ++ cond.Like.map (fun _ => name cond.Name ++ " NOT ILIKE ?")
                ++ [name cond.Name ++ " IS NOT NULL"]) ++ ") ",
             as ++ cond.Like.map GoAny.string)) ∧
    buildFilterClauseForMetricsViewFilter (fun s => s) fromValueScalar
        (some { Include := none,
                Exclude := some [{ Name := "x", In := [.NumberValue 1], Like := [] }] }) =
      .ok ("AND (x NOT IN (?) OR x IS NULL) ", [.number 1]) ∧
    containsSubstr "AND (x NOT IN (?) OR x IS NULL) " "AND (x NOT IN (?) OR x IS NULL)" = true ∧
    buildFilterClauseForMetricsViewFilter safeName fromValueScalar
        (some { Include := none,
                Exclude := some [{ Name := "x", In := [.NumberValue 1], Like := [] }] }) =
      .ok ("AND (\"x\" NOT IN (?) OR \"x\" IS NULL) ", [.number 1]) := by
  refine ⟨?_, ?_, rfl, by decide, rfl⟩
  · intro name fromValue cond as hconv hnull hclause
    rw [buildFilterClauseForCondition_eq name fromValue cond true as hconv]
    have hany : cond.In.any Value.isNull = false := by
      rw [Bool.eq_false_iff]
      intro h
      rw [List.any_eq_true] at h
      obtain ⟨v, hv, hvn⟩ := h
      cases v <;> simp [Value.isNull] at hvn
      exact hnull hv
    have e1 : ∀ X : String, name cond.Name ++ " " ++ "NOT" ++ " IN (" ++ X ++ ")"
        = name cond.Name ++ " NOT IN (" ++ X ++ ")" := by
      intro X; apply String.ext; simp [String.data_append]
    have e2 : name cond.Name ++ " " ++ "NOT" ++ " ILIKE ?" = name cond.Name ++ " NOT ILIKE ?" := by
      apply String.ext; simp [String.data_append]
    have hpos : ∀ X : String, 0 < (name cond.Name ++ " NOT IN (" ++ X ++ ")").length := by
      intro X; exact length_append_pos_right _ _ (by decide)
    have hpos2 : 0 < (name cond.Name ++ " NOT ILIKE ?").length :=
      length_append_pos_right _ _ (by decide)
    by_cases has : as = []
    · have hl : cond.Like ≠ [] := by
        rcases hclause with h | h
        · exact absurd has h
        · exact h
      obtain ⟨l, ls, hls⟩ := List.exists_cons_of_ne_nil hl
      have := intercalate_length_pos " AND " (name cond.Name ++ " NOT ILIKE ?")
        (List.replicate ls.length (name cond.Name ++ " NOT ILIKE ?")) hpos2
      simp [hany, has, e2, hls, List.replicate_succ, this]
      simp only [String.append_assoc]
    · have := fun X => intercalate_length_pos " AND " (name cond.Name ++ " NOT IN (" ++ X ++ ")")
        (List.replicate cond.Like.length (name cond.Name ++ " NOT ILIKE ?")) (hpos X)
      simp [hany, has, e1, e2, this]
      simp only [String.append_assoc]
  · intro name fromValue cond as hconv hnull
    rw [buildFilterClauseForCondition_eq name fromValue cond true as hconv]
    have hany : cond.In.any Value.isNull = true := by
      rw [List.any_eq_true]
      exact ⟨_, hnull, rfl⟩
    have e1 : ∀ X : String, name cond.Name ++ " " ++ "NOT" ++ " IN (" ++ X ++ ")"
        = name cond.Name ++ " NOT IN (" ++ X ++ ")" := by
      intro X; apply String.ext; simp [String.data_append]
    have e2 : name cond.Name ++ " " ++ "NOT" ++ " ILIKE ?" = name cond.Name ++ " NOT ILIKE ?" := by
      apply String.ext; simp [String.data_append]
    have e3 : name cond.Name ++ " IS " ++ "NOT" ++ " NULL" = name cond.Name ++ " IS NOT NULL" := by
      apply String.ext; simp [String.data_append]
    by_cases has : as = []
    · simp [hany, has, e2, e3]
    · simp [hany, has, e1, e2, e3]

/-- Witness of `exclude_condition_null_aware` (first part) at the condition of
the spec scenario: exclude `x` in `[1]`. -/
theorem exclude_condition_null_aware_witness :
    buildFilterClauseForCondition (fun s => s) fromValueScalar
        { Name := "x", In := [.NumberValue 1], Like := [] } true =
      .ok ("AND (" ++ " AND ".intercalate
            ((if [GoAny.number 1] ≠ [] then
                ["x" ++ " NOT IN (" ++ ",".intercalate (List.replicate 1 "?") ++ ")"]
              else [])
              ++ ([] : List String).map (fun _ => "x" ++ " NOT ILIKE ?"))
            ++ " OR " ++ "x" ++ " IS NULL" ++ ") ",
           [GoAny.number 1] ++ ([] : List String).map GoAny.string) :=
  exclude_condition_null_aware.1 (fun s => s) fromValueScalar
    { Name := "x", In := [.NumberValue 1], Like := [] } [.number 1]
    (List.Forall₂.cons rfl List.Forall₂.nil) (by decide) (Or.inl (by decide))

end queries

namespace queries

theorem countPlaceholders_append (a b : String) :
    countPlaceholders (a ++ b) = countPlaceholders a + countPlaceholders b := by
  simp [countPlaceholders, String.data_append]

theorem countPlaceholders_intercalate (s : String) (hs : countPlaceholders s = 0)
    (l : List String) :
    countPlaceholders (s.intercalate l) = (l.map countPlaceholders).sum := by
  cases l with
  | nil => simp [String.intercalate, countPlaceholders]
  | cons a l =>
    have hs2 : List.count '?' s.data = 0 := hs
    unfold countPlaceholders
    rw [intercalate_cons_data]
    simp only [List.count_append, List.map_cons, List.sum_cons]
    congr 1
    induction l with
    | nil => simp
    | cons b l ih => simp [List.count_append, hs2, ih, countPlaceholders]

theorem countPlaceholders_marks (n : Nat) :
    countPlaceholders (",".intercalate (List.replicate n "?")) = n := by
  rw [countPlaceholders_intercalate "," (by decide)]
  induction n with
  | zero => simp
  | succ n ih =>
    simp only [List.replicate_succ, List.map_cons, List.sum_cons, ih]
    have : countPlaceholders "?" = 1 := by decide
    omega

theorem exists_converted (fromValue : Value → Except String GoAny) (vs : List Value)
    (h : ∀ v ∈ vs, ∃ a, fromValue v = .ok a) :
    ∃ as, List.Forall₂ (fun v a => fromValue v = .ok a) vs as := by
  induction vs with
  | nil => exact ⟨[], List.Forall₂.nil⟩
  | cons v vs ih =>
    obtain ⟨a, ha⟩ := h v (List.mem_cons_self _ _)
    obtain ⟨as, has⟩ := ih (fun w hw => h w (List.mem_cons_of_mem _ hw))
    exact ⟨a :: as, List.Forall₂.cons ha has⟩

/-- One condition without nulls and without `Like` strings, whose values all
convert and whose emitted name holds no question mark: as many placeholders
and arguments as `In` values; the clause is empty exactly when `In` is. -/
theorem condition_placeholders (name : String → String)
    (fromValue : Value → Except String GoAny) (cond : MetricsViewFilter_Cond) (exclude : Bool)
    (hin : ∀ v ∈ cond.In, v.isNull = false ∧ ∃ a, fromValue v = .ok a)
    (hlike : cond.Like = []) (hname : countPlaceholders (name cond.Name) = 0) :
    ∃ frag args, buildFilterClauseForCondition name fromValue cond exclude = .ok (frag, args) ∧
      countPlaceholders frag = cond.In.length ∧ args.length = cond.In.length := by
  obtain ⟨as, has⟩ := exists_converted fromValue cond.In (fun v hv => (hin v hv).2)
  have hfilter : cond.In.filter (fun v => !v.isNull) = cond.In := by
    rw [List.filter_eq_self]
    intro v hv
    simp [(hin v hv).1]
  have hlen : as.length = cond.In.length := (List.Forall₂.length_eq has).symm
  have hany : cond.In.any Value.isNull = false := by
    rw [Bool.eq_false_iff]
    intro h
    rw [List.any_eq_true] at h
    obtain ⟨v, hv, hvn⟩ := h
    rw [(hin v hv).1] at hvn
    exact Bool.false_ne_true hvn
  have hconv : List.Forall₂ (fun v a => fromValue v = .ok a)
      (cond.In.filter (fun v => !v.isNull)) as := by
    rw [hfilter]; exact has
  rw [buildFilterClauseForCondition_eq name fromValue cond exclude as hconv]
  by_cases hnil : as = []
  · have h0 : cond.In.length = 0 := by rw [← hlen, hnil]; rfl
    refine ⟨"", [], ?_, ?_, ?_⟩
    · simp [hany, hnil, hlike]
    · rw [h0]; rfl
    · rw [h0]; rfl
  · have c1 : countPlaceholders "AND (" = 0 := by decide
    have c2 : countPlaceholders ") " = 0 := by decide
    have c3 : countPlaceholders " " = 0 := by decide
    have c4 : countPlaceholders " IN (" = 0 := by decide
    have c5 : countPlaceholders ")" = 0 := by decide
    have c6 : countPlaceholders " OR " = 0 := by decide
    have c7 : countPlaceholders " IS NULL" = 0 := by decide
    have c8 : countPlaceholders "NOT" = 0 := by decide
    have c9 : countPlaceholders "" = 0 := by decide
    cases exclude with
    | false =>
      refine ⟨"AND (" ++ (name cond.Name ++ " " ++ "" ++ " IN (" ++
        ",".intercalate (List.replicate as.length "?") ++ ")") ++ ") ", as, ?_, ?_, ?_⟩
      · simp [hany, hnil, hlike, intercalate_singleton]
      · simp [countPlaceholders_append, countPlaceholders_marks, c1, c2, c3, c4, c5, c9, hname, hlen]
      · simp [hlen]
    | true =>
      refine ⟨"AND (" ++ (name cond.Name ++ " " ++ "NOT" ++ " IN (" ++
        ",".intercalate (List.replicate as.length "?") ++ ")" ++ " OR " ++ name cond.Name
        ++ " IS NULL") ++ ") ", as, ?_, ?_, ?_⟩
      · have h1 : 0 < ")".length := by decide
        simp [hany, hnil, hlike, intercalate_singleton, h1]
      · simp [countPlaceholders_append, countPlaceholders_marks, c1, c2, c3, c4, c5, c6, c7, c8,
          hname, hlen]
      · simp [hlen]

end queries

namespace queries

theorem condsLoop_placeholders (name : String → String)
    (fromValue : Value → Except String GoAny) (exclude : Bool)
    (conds : List MetricsViewFilter_Cond) (clauses : List String) (args : List GoAny)
    (h : ∀ cond ∈ conds, ((∀ v ∈ cond.In, v.isNull = false ∧ ∃ a, fromValue v = .ok a) ∧ cond.Like = [] ∧
        countPlaceholders (name cond.Name) = 0)) :
    ∃ clauses1 args1, condsLoop name fromValue exclude conds clauses args = .ok (clauses1, args1) ∧
      (clauses1.map countPlaceholders).sum
        = (clauses.map countPlaceholders).sum + (conds.map (fun c => c.In.length)).sum ∧
      args1.length = args.length + (conds.map (fun c => c.In.length)).sum := by
  induction conds generalizing clauses args with
  | nil => exact ⟨clauses, args, rfl, by simp, by simp⟩
  | cons cond rest ih =>
    obtain ⟨h1, h2, h3⟩ := h cond (List.mem_cons_self _ _)
    obtain ⟨frag, cargs, hc, hcount, hlen⟩ :=
      condition_placeholders name fromValue cond exclude h1 h2 h3
    have hrest : ∀ c ∈ rest, ((∀ v ∈ c.In, v.isNull = false ∧ ∃ a, fromValue v = .ok a) ∧ c.Like = [] ∧
        countPlaceholders (name c.Name) = 0) :=
      fun c hc => h c (List.mem_cons_of_mem _ hc)
    by_cases hempty : frag = ""
    · obtain ⟨cl, ar, hl, hs, ha⟩ := ih clauses args hrest
      refine ⟨cl, ar, ?_, ?_, ?_⟩
      · simp [condsLoop, hc, hempty, hl]
      · have h0 : cond.In.length = 0 := by rw [← hcount, hempty]; rfl
        simp [hs, h0]
      · have h0 : cond.In.length = 0 := by rw [← hcount, hempty]; rfl
        simp [ha, h0]
    · obtain ⟨cl, ar, hl, hs, ha⟩ := ih (clauses ++ [frag]) (args ++ cargs) hrest
      refine ⟨cl, ar, ?_, ?_, ?_⟩
      · simp [condsLoop, hc, hempty, hl]
      · simp [hs, hcount]; omega
      · simp [ha, hlen]; omega

theorem conditions_placeholders (name : String → String)
    (fromValue : Value → Except String GoAny) (exclude : Bool)
    (conds : List MetricsViewFilter_Cond)
    (h : ∀ cond ∈ conds, ((∀ v ∈ cond.In, v.isNull = false ∧ ∃ a, fromValue v = .ok a) ∧ cond.Like = [] ∧
        countPlaceholders (name cond.Name) = 0)) :
    ∃ frag args, buildFilterClauseForConditions name fromValue conds exclude = .ok (frag, args) ∧
      countPlaceholders frag = (conds.map (fun c => c.In.length)).sum ∧
      args.length = (conds.map (fun c => c.In.length)).sum := by
  obtain ⟨cl, ar, hl, hs, ha⟩ := condsLoop_placeholders name fromValue exclude conds [] [] h
  refine ⟨" ".intercalate cl, ar, ?_, ?_, ?_⟩
  · simp [buildFilterClauseForConditions, hl]
  · rw [countPlaceholders_intercalate " " (by decide), hs]; simp
  · simpa using ha

/-- C3 (as amended). For every filter whose conditions hold no null in `In`,
have an empty `Like`, whose `In` values all convert and whose emitted names
hold no question mark, the compiler succeeds, and the number of question
marks in the fragment equals the sum of the lengths of the `In` lists and
equals the number of returned arguments. -/
theorem placeholders_equal_in_values (name : String → String)
    (fromValue : Value → Except String GoAny) (filter : Option MetricsViewFilter)
    (h : ∀ cond ∈ allConds filter,
      (∀ v ∈ cond.In, v.isNull = false ∧ ∃ a, fromValue v = .ok a) ∧ cond.Like = [] ∧
        '?' ∉ (name cond.Name).data) :
    ∃ frag args, buildFilterClauseForMetricsViewFilter name fromValue filter = .ok (frag, args) ∧
      countPlaceholders frag = ((allConds filter).map (fun c => c.In.length)).sum ∧
      args.length = ((allConds filter).map (fun c => c.In.length)).sum := by
  have hp : ∀ cond ∈ allConds filter, ((∀ v ∈ cond.In, v.isNull = false ∧ ∃ a, fromValue v = .ok a) ∧ cond.Like = [] ∧
        countPlaceholders (name cond.Name) = 0) := by
    intro cond hc
    obtain ⟨h1, h2, h3⟩ := h cond hc
    exact ⟨h1, h2, List.count_eq_zero_of_not_mem h3⟩
  have c0 : countPlaceholders " " = 0 := by decide
  unfold buildFilterClauseForMetricsViewFilter
  cases hi : filter.bind (fun f => f.Include) with
  | none =>
    cases he : filter.bind (fun f => f.Exclude) with
    | none =>
      refine ⟨"", [], ?_, ?_, ?_⟩
      · simp [String.intercalate]
      · simp [allConds, hi, he]; rfl
      · simp [allConds, hi, he]
    | some ex =>
      have hex : ∀ c ∈ ex, ((∀ v ∈ c.In, v.isNull = false ∧ ∃ a, fromValue v = .ok a) ∧ c.Like = [] ∧
        countPlaceholders (name c.Name) = 0) := by
        intro c hc; apply hp; simp [allConds, hi, he, hc]
      obtain ⟨f2, a2, hb2, hc2, hl2⟩ := conditions_placeholders name fromValue true ex hex
      refine ⟨f2, a2, ?_, ?_, ?_⟩
      · simp [hb2, intercalate_singleton]
      · simp [allConds, hi, he, hc2]
      · simp [allConds, hi, he, hl2]
  | some inc =>
    have hinc : ∀ c ∈ inc, ((∀ v ∈ c.In, v.isNull = false ∧ ∃ a, fromValue v = .ok a) ∧ c.Like = [] ∧
        countPlaceholders (name c.Name) = 0) := by
      intro c hc; apply hp; simp [allConds, hi, hc]
    obtain ⟨f1, a1, hb1, hc1, hl1⟩ := conditions_placeholders name fromValue false inc hinc
    cases he : filter.bind (fun f => f.Exclude) with
    | none =>
      refine ⟨f1, a1, ?_, ?_, ?_⟩
      · simp [hb1, intercalate_singleton]
      · simp [allConds, hi, he, hc1]
      · simp [allConds, hi, he, hl1]
    | some ex =>
      have hex : ∀ c ∈ ex, ((∀ v ∈ c.In, v.isNull = false ∧ ∃ a, fromValue v = .ok a) ∧ c.Like = [] ∧
        countPlaceholders (name c.Name) = 0) := by
        intro c hc; apply hp; simp [allConds, hi, he, hc]
      obtain ⟨f2, a2, hb2, hc2, hl2⟩ := conditions_placeholders name fromValue true ex hex
      refine ⟨" ".intercalate [f1, f2], a1 ++ a2, ?_, ?_, ?_⟩
      · simp [hb1, hb2]
      · rw [countPlaceholders_intercalate " " c0]
        simp [allConds, hi, he, hc1, hc2]
      · simp [allConds, hi, he, hl1, hl2]

end queries

namespace queries

/-- Witness of `placeholders_equal_in_values`: include `x` in `[1, 2]`,
exclude `y` in `[3]`, names quoted by `safeName`. -/
theorem placeholders_equal_in_values_witness :
    ∃ frag args, buildFilterClauseForMetricsViewFilter safeName fromValueScalar
        (some { Include := some [{ Name := "x", In := [.NumberValue 1, .NumberValue 2], Like := [] }],
                Exclude := some [{ Name := "y", In := [.NumberValue 3], Like := [] }] })
        = .ok (frag, args) ∧
      countPlaceholders frag = 3 ∧ args.length = 3 :=
  placeholders_equal_in_values safeName fromValueScalar
    (some { Include := some [{ Name := "x", In := [.NumberValue 1, .NumberValue 2], Like := [] }],
            Exclude := some [{ Name := "y", In := [.NumberValue 3], Like := [] }] })
    (by
      intro cond hc
      simp only [allConds, Option.bind, Option.getD, List.cons_append, List.nil_append,
        List.mem_cons, List.mem_singleton, List.not_mem_nil, or_false] at hc
      rcases hc with rfl | rfl
      · refine ⟨?_, rfl, by decide⟩
        intro v hv
        simp only [List.mem_cons, List.mem_singleton, List.not_mem_nil, or_false] at hv
        rcases hv with rfl | rfl
        · exact ⟨rfl, _, rfl⟩
        · exact ⟨rfl, _, rfl⟩
      · refine ⟨?_, rfl, by decide⟩
        intro v hv
        simp only [List.mem_cons, List.mem_singleton, List.not_mem_nil, or_false] at hv
        rcases hv with rfl
        exact ⟨rfl, _, rfl⟩)

/-- C3 as stated fails: a column named `a?` with one `In` value, no null and
no `Like` gives a fragment with two question marks (one of them in the emitted
name) for one `In` value and one argument, whether the name is emitted as it
is or quoted by `safeName`. -/
theorem placeholders_exceed_in_values :
    buildFilterClauseForMetricsViewFilter safeName fromValueScalar
        (some { Include := some [{ Name := "a?", In := [.NumberValue 1], Like := [] }],
                Exclude := none })
      = .ok ("AND (\"a?\"  IN (?)) ", [.number 1]) ∧
    countPlaceholders "AND (\"a?\"  IN (?)) " = 2 ∧
    buildFilterClauseForMetricsViewFilter (fun s => s) fromValueScalar
        (some { Include := some [{ Name := "a?", In := [.NumberValue 1], Like := [] }],
                Exclude := none })
      = .ok ("AND (a?  IN (?)) ", [.number 1]) ∧
    countPlaceholders "AND (a?  IN (?)) " = 2 ∧
    ((allConds (some { Include := some [{ Name := "a?", In := [.NumberValue 1], Like := [] }],
                       Exclude := none })).map (fun c => c.In.length)).sum = 1 := by
  refine ⟨rfl, ?_, rfl, ?_, ?_⟩ <;> decide

/-- C4 (the code at the failing input). When the include list and the exclude
list are both present, the two per-list fragments are joined by a blank even
when both are empty: a filter with one empty condition in each list, and a
filter with two present but empty lists, give the one-blank string, not the
empty string; with only one list present the result is the empty string. -/
theorem empty_filter_both_lists_gives_blank (name : String → String)
    (fromValue : Value → Except String GoAny) :
    buildFilterClauseForMetricsViewFilter name fromValue
        (some { Include := some [{ Name := "a", In := [], Like := [] }],
                Exclude := some [{ Name := "b", In := [], Like := [] }] }) = .ok (" ", []) ∧
    buildFilterClauseForMetricsViewFilter name fromValue
        (some { Include := some [], Exclude := some [] }) = .ok (" ", []) ∧
    buildFilterClauseForMetricsViewFilter name fromValue
        (some { Include := some [{ Name := "a", In := [], Like := [] }], Exclude := none })
      = .ok ("", []) ∧
    buildFilterClauseForMetricsViewFilter name fromValue none = .ok ("", []) :=
  ⟨rfl, rfl, rfl, rfl⟩

/-- C5 (the code at the failing input). With an include list that yields no
clause and an exclude list that yields one, the fragment starts with a blank:
it is neither empty nor does it begin with `AND`, whether the name is quoted
by `safeName` or emitted as it is. -/
theorem fragment_starts_with_blank :
    buildFilterClauseForMetricsViewFilter safeName fromValueScalar
        (some { Include := some [{ Name := "a", In := [], Like := [] }],
                Exclude := some [{ Name := "x", In := [.NumberValue 1], Like := [] }] })
      = .ok (" AND (\"x\" NOT IN (?) OR \"x\" IS NULL) ", [.number 1]) ∧
    "AND".data.isPrefixOf " AND (\"x\" NOT IN (?) OR \"x\" IS NULL) ".data = false ∧
    " AND (\"x\" NOT IN (?) OR \"x\" IS NULL) " ≠ "" ∧
    buildFilterClauseForMetricsViewFilter (fun s => s) fromValueScalar
        (some { Include := some [{ Name := "a", In := [], Like := [] }],
                Exclude := some [{ Name := "x", In := [.NumberValue 1], Like := [] }] })
      = .ok (" AND (x NOT IN (?) OR x IS NULL) ", [.number 1]) ∧
    "AND".data.isPrefixOf " AND (x NOT IN (?) OR x IS NULL) ".data = false ∧
    " AND (x NOT IN (?) OR x IS NULL) " ≠ "" := by
  refine ⟨rfl, ?_, ?_, rfl, ?_, ?_⟩ <;> decide

end queries

namespace server

/-- C6 (the code at the failing input). `quoteName` wraps the name in double
quotes and copies it unchanged: for the column name `a"b` it gives `"a"b"`,
not `"a""b"`; and the handlers place the table name of the request into the
statement text as it is, without quotes. -/
theorem quoteName_does_not_double_quotes :
    (∀ id : String, quoteName id = "\"" ++ id ++ "\"") ∧
    quoteName "a\"b" = "\"a\"b\"" ∧
    "\"" ++ queries.escapeQuotes "a\"b" ++ "\"" = "\"a\"\"b\"" ∧
    quoteName "a\"b" ≠ "\"" ++ queries.escapeQuotes "a\"b" ++ "\"" ∧
    nullCountSql "my table" "a\"b" =
      "SELECT count(*) as count from my table WHERE \"a\"b\" IS NULL" ∧
    cardinalitySql "my table" "a\"b" =
      "SELECT approx_count_distinct(\"a\"b\") as count from my table" := by
  refine ⟨fun _ => rfl, rfl, rfl, ?_, rfl, rfl⟩
  decide

end server

namespace duckdb

/-- C7 (as amended). The release function built by `acquireOLAPConn` and by
`acquireMetaConn` (context without a connection, a fresh connection from the
pool) is not idempotent. Its first invocation closes the connection and gives
the permit back: the gate is as before the acquire. Its second invocation
finds the connection closed, returns `sql.ErrConnDone`, and releases the
semaphore once more: the count of held permits drops by one again when another
holder has one, and the release faults when none is held. The no-op release
of the context path leaves the gate as it is, however often it is called. -/
theorem release_twice_releases_twice :
    (∀ (ctx : Context) (priority : Int) (conn : Conn) (c : connection),
      ctx.conn = none → conn ∉ c.db.handedOut → c.olapSem.inUse < c.olapSem.capacity →
      acquireOLAPConn ctx priority (.ok conn) c =
          .returns { conn := some conn, release := some (.olapRelease conn), err := none }
            { c with db := { handedOut := conn :: c.db.handedOut },
                     olapSem := { c.olapSem with inUse := c.olapSem.inUse + 1 } } ∧
        (ReleaseFunc.olapRelease conn).call
            { c with db := { handedOut := conn :: c.db.handedOut },
                     olapSem := { c.olapSem with inUse := c.olapSem.inUse + 1 } }
          = .returns none c ∧
        (ReleaseFunc.olapRelease conn).call c =
          (if c.olapSem.inUse = 0 then .panics "release without acquire"
           else .returns (some .connDone)
             { c with olapSem := { c.olapSem with inUse := c.olapSem.inUse - 1 } })) ∧
    (∀ (ctx : Context) (conn : Conn) (c : connection),
      ctx.conn = none → conn ∉ c.db.handedOut → c.metaSem.cur < c.metaSem.size →
      acquireMetaConn ctx (.ok conn) c =
          .returns { conn := some conn, release := some (.metaRelease conn), err := none }
            { c with db := { handedOut := conn :: c.db.handedOut },
                     metaSem := { c.metaSem with cur := c.metaSem.cur + 1 } } ∧
        (ReleaseFunc.metaRelease conn).call
            { c with db := { handedOut := conn :: c.db.handedOut },
                     metaSem := { c.metaSem with cur := c.metaSem.cur + 1 } }
          = .returns none c ∧
        (ReleaseFunc.metaRelease conn).call c =
          (if c.metaSem.cur = 0 then .panics "semaphore: released more than held"
           else .returns (some .connDone)
             { c with metaSem := { c.metaSem with cur := c.metaSem.cur - 1 } })) ∧
    (∀ c : connection, ReleaseFunc.noop.call c = .returns none c) := by
  refine ⟨?_, ?_, fun _ => rfl⟩
  · intro ctx priority conn c hctx hfresh hfree
    refine ⟨?_, ?_, ?_⟩
    · simp [acquireOLAPConn, hctx, Semaphore.Acquire, hfree, DB.Connx]
    · simp [ReleaseFunc.call, DB.Close, Semaphore.Release]
    · by_cases h0 : c.olapSem.inUse = 0
      · simp [ReleaseFunc.call, DB.Close, Semaphore.Release, hfresh, h0]
      · simp [ReleaseFunc.call, DB.Close, Semaphore.Release, hfresh, h0]
  · intro ctx conn c hctx hfresh hfree
    have hle : 1 ≤ c.metaSem.size - c.metaSem.cur := by omega
    refine ⟨?_, ?_, ?_⟩
    · simp [acquireMetaConn, hctx, Weighted.Acquire, hle, DB.Connx]
    · simp [ReleaseFunc.call, DB.Close, Weighted.Release]
    · by_cases h0 : c.metaSem.cur = 0
      · simp [ReleaseFunc.call, DB.Close, Weighted.Release, hfresh, h0]
      · have : ¬ c.metaSem.cur < 1 := by omega
        simp [ReleaseFunc.call, DB.Close, Weighted.Release, hfresh, h0, this]

/-- Witness of `release_twice_releases_twice`: an OLAP semaphore of capacity 2
with one permit held by another query; connection 7 is fresh. The second
invocation of release takes the other holder's permit. -/
theorem release_twice_releases_twice_witness :
    acquireOLAPConn { conn := none, err := none } 0 (.ok 7)
        { db := { handedOut := [] }, metaSem := { size := 1, cur := 0 },
          olapSem := { capacity := 2, inUse := 1 } } =
        .returns { conn := some 7, release := some (.olapRelease 7), err := none }
          { db := { handedOut := [7] }, metaSem := { size := 1, cur := 0 },
            olapSem := { capacity := 2, inUse := 2 } } ∧
      (ReleaseFunc.olapRelease 7).call
          { db := { handedOut := [7] }, metaSem := { size := 1, cur := 0 },
            olapSem := { capacity := 2, inUse := 2 } }
        = .returns none
          { db := { handedOut := [] }, metaSem := { size := 1, cur := 0 },
            olapSem := { capacity := 2, inUse := 1 } } ∧
      (ReleaseFunc.olapRelease 7).call
          { db := { handedOut := [] }, metaSem := { size := 1, cur := 0 },
            olapSem := { capacity := 2, inUse := 1 } } =
        (if (1 : Nat) = 0 then .panics "release without acquire"
         else .returns (some .connDone)
          { db := { handedOut := [] }, metaSem := { size := 1, cur := 0 },
            olapSem := { capacity := 2, inUse := 0 } }) :=
  release_twice_releases_twice.1 { conn := none, err := none } 0 7
    { db := { handedOut := [] }, metaSem := { size := 1, cur := 0 },
      olapSem := { capacity := 2, inUse := 1 } } rfl (by decide) (by decide)

/-- C7 as stated fails. OLAP lane, capacity 2, one permit held by another
query: after acquire the count is 2, after the first release 1, after the
second release 0, not 1. Meta lane, capacity 1: the second release panics. -/
theorem second_release_is_not_a_noop :
    acquireOLAPConn { conn := none, err := none } 0 (.ok 7)
        { db := { handedOut := [] }, metaSem := { size := 1, cur := 0 },
          olapSem := { capacity := 2, inUse := 1 } } =
        .returns { conn := some 7, release := some (.olapRelease 7), err := none }
          { db := { handedOut := [7] }, metaSem := { size := 1, cur := 0 },
            olapSem := { capacity := 2, inUse := 2 } } ∧
    (ReleaseFunc.olapRelease 7).call
        { db := { handedOut := [7] }, metaSem := { size := 1, cur := 0 },
          olapSem := { capacity := 2, inUse := 2 } }
      = .returns none
        { db := { handedOut := [] }, metaSem := { size := 1, cur := 0 },
          olapSem := { capacity := 2, inUse := 1 } } ∧
    (ReleaseFunc.olapRelease 7).call
        { db := { handedOut := [] }, metaSem := { size := 1, cur := 0 },
          olapSem := { capacity := 2, inUse := 1 } }
      = .returns (some .connDone)
        { db := { handedOut := [] }, metaSem := { size := 1, cur := 0 },
          olapSem := { capacity := 2, inUse := 0 } } ∧
    acquireMetaConn { conn := none, err := none } (.ok 7)
        { db := { handedOut := [] }, metaSem := { size := 1, cur := 0 },
          olapSem := { capacity := 1, inUse := 0 } } =
        .returns { conn := some 7, release := some (.metaRelease 7), err := none }
          { db := { handedOut := [7] }, metaSem := { size := 1, cur := 1 },
            olapSem := { capacity := 1, inUse := 0 } } ∧
    (ReleaseFunc.metaRelease 7).call
        { db := { handedOut := [7] }, metaSem := { size := 1, cur := 1 },
          olapSem := { capacity := 1, inUse := 0 } }
      = .returns none
        { db := { handedOut := [] }, metaSem := { size := 1, cur := 0 },
          olapSem := { capacity := 1, inUse := 0 } } ∧
    (ReleaseFunc.metaRelease 7).call
        { db := { handedOut := [] }, metaSem := { size := 1, cur := 0 },
          olapSem := { capacity := 1, inUse := 0 } }
      = .panics "semaphore: released more than held" := by
  decide

end duckdb

namespace duckdb

/-- C8. Context without a connection. If the semaphore grants its permit and
the pool then answers with an error, `acquireMetaConn` and `acquireOLAPConn`
return that error with no connection and no release function, and the gate is
exactly as before the call: the permit is given back and no connection is
handed out. If the acquisition of the semaphore itself fails, the call returns
that error, again with the gate unchanged: no permit is held, no connection
was opened. -/
theorem acquire_error_paths_hold_nothing :
    (∀ (ctx : Context) (e : GateError) (c : connection) (sem : Weighted),
      ctx.conn = none → c.metaSem.Acquire ctx 1 = some (.ok sem) →
      acquireMetaConn ctx (.error e) c =
        .returns { conn := none, release := none, err := some e } c) ∧
    (∀ (ctx : Context) (priority : Int) (e : GateError) (c : connection) (sem : Semaphore),
      ctx.conn = none → c.olapSem.Acquire ctx priority = some (.ok sem) →
      acquireOLAPConn ctx priority (.error e) c =
        .returns { conn := none, release := none, err := some e } c) ∧
    (∀ (ctx : Context) (dial : Except GateError Conn) (e : GateError) (c : connection),
      ctx.conn = none → c.metaSem.Acquire ctx 1 = some (.error e) →
      acquireMetaConn ctx dial c =
        .returns { conn := none, release := none, err := some e } c) ∧
    (∀ (ctx : Context) (priority : Int) (dial : Except GateError Conn) (e : GateError)
      (c : connection),
      ctx.conn = none → c.olapSem.Acquire ctx priority = some (.error e) →
      acquireOLAPConn ctx priority dial c =
        .returns { conn := none, release := none, err := some e } c) := by
  refine ⟨?_, ?_, ?_, ?_⟩
  · intro ctx e c sem hctx hacq
    have hsem : 1 ≤ c.metaSem.size - c.metaSem.cur ∧ sem = { c.metaSem with cur := c.metaSem.cur + 1 } := by
      unfold Weighted.Acquire at hacq
      by_cases h : 1 ≤ c.metaSem.size - c.metaSem.cur
      · simp [h] at hacq
        exact ⟨h, hacq.symm⟩
      · simp only [h, if_false] at hacq
        cases hce : ctx.err <;> simp [hce] at hacq
    obtain ⟨_, rfl⟩ := hsem
    simp [acquireMetaConn, hctx, hacq, DB.Connx, Weighted.Release]
  · intro ctx priority e c sem hctx hacq
    have hsem : c.olapSem.inUse < c.olapSem.capacity ∧
        sem = { c.olapSem with inUse := c.olapSem.inUse + 1 } := by
      unfold Semaphore.Acquire at hacq
      by_cases h : c.olapSem.inUse < c.olapSem.capacity
      · simp [h] at hacq
        exact ⟨h, hacq.symm⟩
      · simp only [h, if_false] at hacq
        cases hce : ctx.err <;> simp [hce] at hacq
    obtain ⟨_, rfl⟩ := hsem
    simp [acquireOLAPConn, hctx, hacq, DB.Connx, Semaphore.Release]
  · intro ctx dial e c hctx hacq
    simp [acquireMetaConn, hctx, hacq]
  · intro ctx priority dial e c hctx hacq
    simp [acquireOLAPConn, hctx, hacq]

/-- Witness of `acquire_error_paths_hold_nothing`: the meta semaphore is free,
the pool refuses the connection. -/
theorem acquire_error_paths_hold_nothing_witness :
    acquireMetaConn { conn := none, err := none } (.error (.driver "no connection"))
        { db := { handedOut := [] }, metaSem := { size := 1, cur := 0 },
          olapSem := { capacity := 1, inUse := 0 } } =
      .returns { conn := none, release := none, err := some (.driver "no connection") }
        { db := { handedOut := [] }, metaSem := { size := 1, cur := 0 },
          olapSem := { capacity := 1, inUse := 0 } } :=
  acquire_error_paths_hold_nothing.1 { conn := none, err := none } (.driver "no connection")
    { db := { handedOut := [] }, metaSem := { size := 1, cur := 0 },
      olapSem := { capacity := 1, inUse := 0 } } { size := 1, cur := 1 } rfl rfl

end duckdb

namespace queries

section HistogramTheorems

variable {R ρ : Type} [LinearOrderedField R] [FloorRing R]

theorem bucketSizeOf_zero (cbrt : R → R) (p : Phase1 R)
    (h : p.iqr.Valid = false ∨ p.rangeVal.Valid = false ∨ p.rangeVal.Float64 = .fin 0) :
    bucketSizeOf cbrt p = .fin 0 := by
  unfold bucketSizeOf
  rcases h with h | h | h
  · simp [h]
  · simp [h]
  · simp [h, F64.eq]

/-- A phase-1 row that scans gives the bucket size decided from it, and the
phase-1 statement is the only one executed. -/
theorem calculateBucketSize_row (name : String → String) (cbrt : R → R)
    (q : ColumnNumericHistogram R) (olap : OLAPStore R ρ) (priority : Int)
    (row : ρ) (rest : List ρ) (p : Phase1 R)
    (hex : olap.Execute (phase1Statement name q priority) = .ok (row :: rest))
    (hscan : olap.scanPhase1 row = .ok p) :
    calculateBucketSize name cbrt q olap priority =
      (.ok (bucketSizeOf cbrt p), [phase1Statement name q priority]) := by
  simp [calculateBucketSize, hex, hscan]

/-- C9. If the phase-1 query yields no row, or its row has a null `iqr`, a
null `range` or a `range` equal to 0, then `calculateBucketSize` returns the
bucket size 0 with no error, and `Resolve` returns nil with `q` (and so
`q.Result`) as it was, the phase-1 statement being the only statement
executed: the histogram query is not issued. -/
theorem null_or_zero_range_skips_histogram (name : String → String) (cbrt : R → R)
    (fmtFloat : F64 R → String) (q : ColumnNumericHistogram R) (rt : Runtime R ρ)
    (instanceID : String) (priority : Int) (olap : OLAPStore R ρ) (rows : List ρ)
    (hrt : rt.OLAP instanceID = .ok olap) (hd : olap.Dialect = .DialectDuckDB)
    (hex : olap.Execute (phase1Statement name q priority) = .ok rows)
    (hrow : rows = [] ∨ ∃ row rest p, rows = row :: rest ∧ olap.scanPhase1 row = .ok p ∧
      (p.iqr.Valid = false ∨ p.rangeVal.Valid = false ∨ p.rangeVal.Float64 = .fin 0)) :
    calculateBucketSize name cbrt q olap priority
      = (.ok (.fin 0), [phase1Statement name q priority]) ∧
    Resolve name cbrt fmtFloat q rt instanceID priority
      = (none, q, [phase1Statement name q priority]) := by
  have hcalc : calculateBucketSize name cbrt q olap priority
      = (.ok (.fin 0), [phase1Statement name q priority]) := by
    rcases hrow with h | ⟨row, rest, p, h, hscan, hp⟩
    · subst h
      simp [calculateBucketSize, hex, bucketSizeOf]
    · subst h
      rw [calculateBucketSize_row name cbrt q olap priority row rest p hex hscan,
        bucketSizeOf_zero cbrt p hp]
  refine ⟨hcalc, ?_⟩
  simp [Resolve, hrt, hd, hcalc, F64.eq]

end HistogramTheorems

/-- Witness of `null_or_zero_range_skips_histogram`: rational numbers, rows
that are numbers, an OLAP store whose phase-1 row has a null `iqr`. -/
theorem null_or_zero_range_skips_histogram_witness :
    ∃ olap : OLAPStore ℚ Nat,
      calculateBucketSize safeName (fun x : ℚ => x)
          { TableName := "t", ColumnName := "c", Result := none } olap 1
        = (.ok (.fin 0),
            [phase1Statement safeName
              ({ TableName := "t", ColumnName := "c", Result := none } : ColumnNumericHistogram ℚ) 1]) ∧
      Resolve safeName (fun x : ℚ => x) (fun _ => "0")
          { TableName := "t", ColumnName := "c", Result := none }
          { OLAP := fun _ => .ok olap } "default" 1
        = (none, { TableName := "t", ColumnName := "c", Result := none },
            [phase1Statement safeName
              ({ TableName := "t", ColumnName := "c", Result := none } : ColumnNumericHistogram ℚ) 1]) :=
  ⟨{ Dialect := .DialectDuckDB, Execute := fun _ => .ok [0],
     scanPhase1 := fun _ => .ok
       { iqr := { Float64 := .fin 0, Valid := false }, count := .fin 0,
         rangeVal := { Float64 := .fin 0, Valid := false } },
     scanBin := fun _ => .error (.driver "no bins") },
   null_or_zero_range_skips_histogram safeName (fun x : ℚ => x) (fun _ => "0")
    { TableName := "t", ColumnName := "c", Result := none }
    { OLAP := fun _ => .ok _ } "default" 1 _ [0] rfl rfl rfl
    (Or.inr ⟨0, [], _, rfl, rfl, Or.inl rfl⟩)⟩

end queries

namespace queries

end queries

namespace arrayutil

section Dedupe

variable {E : Type} [DecidableEq E]

theorem dedupeLoop_eq (l dedupeMap deduped : List E) :
    dedupeLoop l dedupeMap deduped
      = deduped ++ (firstOccurrences l).filter (fun e => e ∉ dedupeMap) := by
  induction l generalizing dedupeMap deduped with
  | nil => simp [dedupeLoop, firstOccurrences]
  | cons e rest ih =>
    by_cases h : e ∈ dedupeMap
    · simp only [dedupeLoop, h, if_true, ih, firstOccurrences, List.filter_cons, not_true_eq_false,
        decide_False, Bool.false_eq_true, if_false, List.filter_filter]
      congr 1
      apply List.filter_congr
      intro x _
      by_cases hx : x ∈ dedupeMap
      · simp [hx]
      · have : x ≠ e := fun hxe => hx (hxe ▸ h)
        simp [hx, this]
    · simp only [dedupeLoop, h, if_false, ih, firstOccurrences, List.filter_cons, not_false_eq_true,
        decide_True, if_true, List.filter_filter, List.append_assoc, List.singleton_append]
      congr 2
      apply List.filter_congr
      intro x _
      simp [List.mem_cons, not_or, Bool.and_comm]

theorem Dedupe_eq (a : List E) : Dedupe a = firstOccurrences a := by
  simp [Dedupe, dedupeLoop_eq]

theorem mem_firstOccurrences (a : List E) (x : E) : x ∈ firstOccurrences a ↔ x ∈ a := by
  induction a with
  | nil => simp [firstOccurrences]
  | cons y ys ih =>
    simp only [firstOccurrences, List.mem_cons, List.mem_filter, ih]
    by_cases h : x = y
    · simp [h]
    · simp [h]

theorem nodup_firstOccurrences (a : List E) : (firstOccurrences a).Nodup := by
  induction a with
  | nil => simp [firstOccurrences]
  | cons y ys ih =>
    simp only [firstOccurrences, List.nodup_cons, List.mem_filter]
    refine ⟨?_, ih.filter _⟩
    simp

theorem sublist_firstOccurrences (a : List E) : (firstOccurrences a).Sublist a := by
  induction a with
  | nil => simp [firstOccurrences]
  | cons y ys ih =>
    simp only [firstOccurrences]
    exact ((List.filter_sublist _).trans ih).cons₂ y

theorem firstOccurrences_of_nodup (a : List E) (h : a.Nodup) : firstOccurrences a = a := by
  induction a with
  | nil => rfl
  | cons y ys ih =>
    obtain ⟨hy, hys⟩ := List.nodup_cons.mp h
    simp only [firstOccurrences, ih hys]
    congr 1
    rw [List.filter_eq_self]
    intro x hx
    have : x ≠ y := fun hxy => hy (hxy ▸ hx)
    simp [this]

theorem Contains_eq (a : List E) (c : E) : Contains a c = decide (c ∈ a) := by
  induction a with
  | nil => simp [Contains]
  | cons y ys ih =>
    by_cases h : y = c
    · simp [Contains, h]
    · have h2 : ¬ c = y := fun hc => h hc.symm
      simp [Contains, h, h2, ih]

end Dedupe

/-- C20. For every list `a`, `Dedupe a` is the list of the distinct elements
of `a` in order of first occurrence (the head of `a`, then the distinct
elements of the tail other than the head): it has no repeated element, is a
subsequence of `a`, `Contains (Dedupe a) x = Contains a x` for every `x`, and
`Dedupe (Dedupe a) = Dedupe a`. -/
theorem dedupe_first_occurrences {E : Type} [DecidableEq E] (a : List E) :
    Dedupe a = firstOccurrences a ∧
    (Dedupe a).Nodup ∧
    (Dedupe a).Sublist a ∧
    (∀ x, Contains (Dedupe a) x = Contains a x) ∧
    Dedupe (Dedupe a) = Dedupe a := by
  refine ⟨Dedupe_eq a, ?_, ?_, ?_, ?_⟩
  · rw [Dedupe_eq]; exact nodup_firstOccurrences a
  · rw [Dedupe_eq]; exact sublist_firstOccurrences a
  · intro x
    rw [Contains_eq, Contains_eq, Dedupe_eq]
    simp [mem_firstOccurrences]
  · rw [Dedupe_eq, Dedupe_eq]
    exact firstOccurrences_of_nodup _ (nodup_firstOccurrences a)

end arrayutil

namespace queries

/-- C14. For every `ColumnNumericHistogram` `q`, unmarshalling its own
marshalled result succeeds and leaves `q` as it was; unmarshalling it into
another query succeeds and gives that query the same `Result`; unmarshalling
a value that is not a slice of histogram bins returns an error and leaves the
query unchanged. -/
theorem marshal_unmarshal_roundtrip {R : Type} (q : ColumnNumericHistogram R) :
    q.UnmarshalResult q.MarshalResult = (none, q) ∧
    (∀ q2 : ColumnNumericHistogram R,
      (q2.UnmarshalResult q.MarshalResult).1 = none ∧
      (q2.UnmarshalResult q.MarshalResult).2.Result = q.Result ∧
      (q2.UnmarshalResult q.MarshalResult).2.TableName = q2.TableName ∧
      (q2.UnmarshalResult q.MarshalResult).2.ColumnName = q2.ColumnName) ∧
    (∀ v : GoAny,
      (q.UnmarshalResult (.other v)).1 = some "ColumnNumericHistogram: mismatched unmarshal input" ∧
      (q.UnmarshalResult (.other v)).2 = q) := by
  refine ⟨rfl, fun _ => ⟨rfl, rfl, rfl, rfl⟩, fun _ => ⟨rfl, rfl⟩⟩

theorem split_at_colon (t1 t2 c1 c2 : List Char) (h1 : ':' ∉ t1) (h2 : ':' ∉ t2)
    (h : t1 ++ ':' :: c1 = t2 ++ ':' :: c2) : t1 = t2 ∧ c1 = c2 := by
  induction t1 generalizing t2 with
  | nil =>
    cases t2 with
    | nil => simpa using h
    | cons b t2 =>
      simp only [List.nil_append, List.cons_append, List.cons.injEq] at h
      exact absurd (by rw [← h.1]; exact List.mem_cons_self _ _) h2
  | cons a t1 ih =>
    cases t2 with
    | nil =>
      simp only [List.nil_append, List.cons_append, List.cons.injEq] at h
      exact absurd (by rw [h.1]; exact List.mem_cons_self _ _) h1
    | cons b t2 =>
      simp only [List.cons_append, List.cons.injEq] at h
      have := ih t2 (fun hm => h1 (List.mem_cons_of_mem _ hm))
        (fun hm => h2 (List.mem_cons_of_mem _ hm)) h.2
      exact ⟨by rw [h.1, this.1], this.2⟩

/-- C19 (as amended). For queries whose table names hold no colon, two
queries have equal keys if and only if they have the same `TableName` and the
same `ColumnName`. -/
theorem key_identifies_query {R : Type} (q1 q2 : ColumnNumericHistogram R)
    (h1 : ':' ∉ q1.TableName.data) (h2 : ':' ∉ q2.TableName.data) :
    q1.Key = q2.Key ↔ q1.TableName = q2.TableName ∧ q1.ColumnName = q2.ColumnName := by
  constructor
  · intro h
    have hd := congrArg String.data h
    simp only [ColumnNumericHistogram.Key, String.data_append, List.append_assoc] at hd
    have hd2 := List.append_cancel_left hd
    simp only [List.singleton_append] at hd2
    obtain ⟨ht, hcn⟩ := split_at_colon _ _ _ _ h1 h2 hd2
    exact ⟨String.ext ht, String.ext hcn⟩
  · rintro ⟨ht, hc⟩
    simp [ColumnNumericHistogram.Key, ht, hc]

/-- Witness of `key_identifies_query`: the same table, two columns. -/
theorem key_identifies_query_witness :
    (({ TableName := "t", ColumnName := "a", Result := none } : ColumnNumericHistogram ℚ).Key
        = ({ TableName := "t", ColumnName := "b", Result := none } : ColumnNumericHistogram ℚ).Key
      ↔ "t" = "t" ∧ "a" = "b") :=
  key_identifies_query { TableName := "t", ColumnName := "a", Result := none }
    { TableName := "t", ColumnName := "b", Result := none } (by decide) (by decide)

/-- C19 as stated fails: table `a:b` with column `c` and table `a` with column
`b:c` have the same key. -/
theorem key_collision :
    ({ TableName := "a:b", ColumnName := "c", Result := none } : ColumnNumericHistogram ℚ).Key
      = ({ TableName := "a", ColumnName := "b:c", Result := none } : ColumnNumericHistogram ℚ).Key ∧
    ({ TableName := "a:b", ColumnName := "c", Result := none } : ColumnNumericHistogram ℚ).Key
      = "ColumnNumericHistogram:a:b:c" ∧
    ("a:b" : String) ≠ "a" := by
  refine ⟨rfl, rfl, by decide⟩

end queries

namespace server

theorem sqlAnd_some_iff (a b : Bool) : sqlAnd (some a) (some b) = some true ↔ a = true ∧ b = true := by
  cases a <;> cases b <;> simp [sqlAnd]

theorem sqlAnd_sqlOr_iff (a b : Bool) (l : Option Bool) :
    sqlAnd (sqlOr (some a) l) (some b) = some true ↔ (a = true ∨ l = some true) ∧ b = true := by
  cases a <;> cases b <;> rcases l with _ | _ | _ <;> simp [sqlAnd, sqlOr]

/-- C12. For every row of sampled counts, `EstimateSmallestTimeGrain` returns
the grain of the first rule that holds, in the order millisecond, second,
minute, hour, year, month, week, day, and UNSPECIFIED when no rule holds; a
NULL `lastdayofmonth` counts as false. With `ms <= 1`, `second = 1`,
`minute = 1` and `hour > 1` the result is HOUR. -/
theorem smallest_time_grain_first_rule :
    (∀ t : TimeGrains,
      EstimateSmallestTimeGrain t =
        .ok (some (grainByFirstRule t.ms t.second t.minute t.hour t.dayofyear t.year t.dayofmonth
          (decide (t.lastdayofmonth = some true)) t.month t.dayofweek t.weekofyear))) ∧
    (∀ t : TimeGrains, t.ms ≤ 1 → t.second = 1 → t.minute = 1 → t.hour > 1 →
      EstimateSmallestTimeGrain t = .ok (some .TIME_GRAIN_HOUR)) := by
  have main : ∀ t : TimeGrains,
      EstimateSmallestTimeGrain t =
        .ok (some (grainByFirstRule t.ms t.second t.minute t.hour t.dayofyear t.year t.dayofmonth
          (decide (t.lastdayofmonth = some true)) t.month t.dayofweek t.weekofyear)) := by
    intro t
    unfold EstimateSmallestTimeGrain estimatedSmallestTimeGrain grainByFirstRule
    simp only [caseWhen, sqlAnd_some_iff, sqlAnd_sqlOr_iff, Option.some.injEq, decide_eq_true_eq]
    by_cases h1 : t.ms > 1
    · simp [h1, coalesce, timeGrainResponse]
    by_cases h2 : t.second > 1
    · simp [h1, h2, coalesce, timeGrainResponse]
    by_cases h3 : t.minute > 1
    · simp [h1, h2, h3, coalesce, timeGrainResponse]
    by_cases h4 : t.hour > 1
    · simp [h1, h2, h3, h4, coalesce, timeGrainResponse]
    by_cases h5 : t.dayofyear = 1 ∧ t.year > 1
    · simp [h1, h2, h3, h4, h5, coalesce, timeGrainResponse]
    by_cases h6 : (t.dayofmonth = 1 ∨ t.lastdayofmonth = some true) ∧ t.month > 1
    · simp [h1, h2, h3, h4, h5, h6, coalesce, timeGrainResponse]
    by_cases h7 : t.dayofweek = 1 ∧ t.weekofyear > 1
    · simp [h1, h2, h3, h4, h5, h6, h7, coalesce, timeGrainResponse]
    by_cases h8 : t.hour = 1
    · simp [h1, h2, h3, h4, h5, h6, h7, h8, coalesce, timeGrainResponse]
    · simp [h1, h2, h3, h4, h5, h6, h7, h8, coalesce, timeGrainResponse]
  refine ⟨main, ?_⟩
  intro t hms hs hm hh
  rw [main t]
  have a1 : ¬ t.ms > 1 := by omega
  have a2 : ¬ t.second > 1 := by omega
  have a3 : ¬ t.minute > 1 := by omega
  simp [grainByFirstRule, a1, a2, a3, hh]

/-- Witness of `smallest_time_grain_first_rule`: hourly timestamps over three
days. -/
theorem smallest_time_grain_first_rule_witness :
    EstimateSmallestTimeGrain
        { year := 1, month := 1, dayofyear := 3, dayofmonth := 3, lastdayofmonth := some false,
          weekofyear := 1, dayofweek := 3, hour := 24, minute := 1, second := 1, ms := 1 }
      = .ok (some .TIME_GRAIN_HOUR) :=
  smallest_time_grain_first_rule.2
    { year := 1, month := 1, dayofyear := 3, dayofmonth := 3, lastdayofmonth := some false,
      weekofyear := 1, dayofweek := 3, hour := 24, minute := 1, second := 1, ms := 1 }
    (by decide) rfl rfl (by decide)

/-- C13 (as amended). `handleInterval` maps an engine-native interval to an
`Interval` with the same three fields; it maps an int64 day count `d` to an
`Interval` with months 0, micros 0 and days `int32(d)`, which is `d` whenever
`d` fits in 32 bits; for a value of any other dynamic type it returns an
error and no `Interval`. -/
theorem handleInterval_shapes :
    (∀ i : DuckdbInterval,
      handleInterval (.Interval i) = .ok { Months := i.Months, Days := i.Days, Micros := i.Micros }) ∧
    (∀ d : Int, handleInterval (.int64 d) = .ok { Months := 0, Days := toInt32 d, Micros := 0 }) ∧
    (∀ d : Int, -2 ^ 31 ≤ d → d < 2 ^ 31 →
      handleInterval (.int64 d) = .ok { Months := 0, Days := d, Micros := 0 }) ∧
    (∀ v : Scanned, (∀ i, v ≠ .Interval i) → (∀ d, v ≠ .int64 d) →
      handleInterval v = .error ("cannot handle interval type " ++ v.typeName)) := by
  refine ⟨fun _ => rfl, fun _ => rfl, ?_, ?_⟩
  · intro d hlo hhi
    have : toInt32 d = d := by
      unfold toInt32
      omega
    simp [handleInterval, this]
  · intro v h1 h2
    cases v with
    | Interval i => exact absurd rfl (h1 i)
    | int64 d => exact absurd rfl (h2 d)
    | _ => rfl

/-- Witness of `handleInterval_shapes`: a date column spanning 365 days. -/
theorem handleInterval_shapes_witness :
    handleInterval (.int64 365) = .ok { Months := 0, Days := 365, Micros := 0 } :=
  handleInterval_shapes.2.2.1 365 (by decide) (by decide)

/-- C13 as stated fails: the int64 day count 2147483648 (two dates more than
5.8 million years apart) gives days -2147483648. -/
theorem handleInterval_wraps_days :
    handleInterval (.int64 2147483648)
      = .ok { Months := 0, Days := -2147483648, Micros := 0 } ∧
    (-2 ^ 63 ≤ (2147483648 : Int) ∧ (2147483648 : Int) < 2 ^ 63) := by
  decide

end server

namespace server

open queries

/-- C18 (the code at the failing input). A column with one distinct value
has the phase-1 row `iqr = 0`, `count = 1`, `range = 0`. The query
`ColumnNumericHistogram` decides bucket size 0 and returns after the phase-1
statement, leaving `Result` nil; the handler `GetNumericHistogram`, which
tests only `iqr` for null, decides bucket size 1 and runs the histogram
statement with one bucket. -/
theorem histogram_decisions_differ_on_zero_range (cbrt : ℚ → ℚ) (fmtFloat : F64 ℚ → String) :
    bucketSizeOf cbrt
        { iqr := { Float64 := .fin 0, Valid := true }, count := .fin 1,
          rangeVal := { Float64 := .fin 0, Valid := true } } = .fin 0 ∧
    handlerBucketSize cbrt
        { iqr := { Float64 := .fin 0, Valid := true }, count := .fin 1,
          rangeVal := { Float64 := .fin 0, Valid := true } } = .fin 1 ∧
    Resolve safeName cbrt fmtFloat
        { TableName := "t", ColumnName := "c", Result := none }
        { OLAP := fun _ => .ok
            ({ Dialect := .DialectDuckDB, Execute := fun _ => .ok [0],
               scanPhase1 := fun _ => .ok
                 { iqr := { Float64 := .fin 0, Valid := true }, count := .fin 1,
                   rangeVal := { Float64 := .fin 0, Valid := true } },
               scanBin := fun _ => .ok
                 { Bucket := 0, Low := .fin 5, High := .fin 5, Count := .fin 3 } } :
              OLAPStore ℚ Nat) }
        "default" 1
      = (none, { TableName := "t", ColumnName := "c", Result := none },
          [phase1Statement safeName
            ({ TableName := "t", ColumnName := "c", Result := none } : ColumnNumericHistogram ℚ) 1]) ∧
    GetNumericHistogram cbrt fmtFloat
        ({ query := fun _ _ => .ok [0],
           scanPhase1 := fun _ => .ok
             { iqr := { Float64 := .fin 0, Valid := true }, count := .fin 1,
               rangeVal := { Float64 := .fin 0, Valid := true } },
           scanBin := fun _ => .ok
             { Bucket := 0, Low := .fin 5, High := .fin 5, Count := .fin 3 } } : Server ℚ Nat)
        { InstanceId := "default", TableName := "t", ColumnName := "c", Priority := 1 }
      = (.ok (some [{ Bucket := 0, Low := .fin 5, High := .fin 5, Count := .fin 3 }]),
          [{ Query := numericHistogramQuerySql
               { InstanceId := "default", TableName := "t", ColumnName := "c", Priority := 1 },
             Args := [], Priority := 1 },
           { Query := histogramSql "\"c\"::DOUBLE" "\"c\"" "t" (fmtFloat (.fin 1)),
             Args := [], Priority := 1 }]) := by
  refine ⟨?_, ?_, ?_, ?_⟩
  · simp [bucketSizeOf, F64.eq]
  · simp [handlerBucketSize, F64.lt]
  · simp [Resolve, calculateBucketSize, bucketSizeOf, F64.eq]
  · simp [GetNumericHistogram, phase1Loop, handlerBucketSize, F64.lt, scanHistogramRows, quoteName]

end server

namespace queries

section HistogramCTETheorems

variable {R : Type} [LinearOrderedField R]

section Floor

variable [FloorRing R]

end Floor

end HistogramCTETheorems

end queries
namespace models


/-! ### Lowercasing of a character -/

end models

namespace duckdb

/-- The waiter picked by the admission rule stands in the list with only
lower priorities before it and no higher priority after it. -/
theorem nextWaiter_spec (ws : List Waiter) (w : Waiter) (h : nextWaiter ws = some w) :
    ∃ pre post, ws = pre ++ w :: post ∧ (∀ v ∈ pre, v.priority < w.priority) ∧
      (∀ v ∈ post, v.priority ≤ w.priority) := by
  induction ws generalizing w with
  | nil => simp [nextWaiter] at h
  | cons x xs ih =>
    cases hn : nextWaiter xs with
    | none =>
      simp only [nextWaiter, hn, Option.some.injEq] at h
      subst h
      cases xs with
      | nil => exact ⟨[], [], rfl, by simp, by simp⟩
      | cons y ys =>
        exfalso
        simp only [nextWaiter] at hn
        cases hy : nextWaiter ys with
        | none => simp [hy] at hn
        | some b => simp only [hy] at hn; split at hn <;> simp at hn
    | some b =>
      obtain ⟨pre, post, hxs, hpre, hpost⟩ := ih b hn
      simp only [nextWaiter, hn] at h
      by_cases hb : b.priority > x.priority
      · simp only [hb, if_true, Option.some.injEq] at h
        subst h
        refine ⟨x :: pre, post, by rw [hxs]; rfl, ?_, hpost⟩
        intro v hv
        rcases List.mem_cons.mp hv with rfl | hv
        · exact hb
        · exact hpre v hv
      · simp only [hb, if_false, Option.some.injEq] at h
        subst h
        refine ⟨[], xs, rfl, by simp, ?_⟩
        intro v hv
        rw [hxs] at hv
        have hbx : b.priority ≤ x.priority := not_lt.mp hb
        rcases List.mem_append.mp hv with hv | hv
        · exact (hpre v hv).le.trans hbx
        · rcases List.mem_cons.mp hv with rfl | hv
          · exact hbx
          · exact (hpost v hv).trans hbx

/-- C17. A release on the OLAP lane admits the waiter picked by the admission
rule: the one with maximum priority, the earliest to arrive among those of
equal priority (in the waiters, kept in arrival order, only lower priorities
stand before it and no higher priority after it), so of two waiters the one
with the higher priority is admitted first and equal priorities are admitted
in arrival order. With capacity 1, T1 holding, T2 waiting at priority 1 and
T3 waiting at priority 5, the release of T1 admits T3 and the release of T3
admits T2. -/
theorem olap_admission_by_priority :
    (∀ (l : OLAPLane) (conn newConn : Conn) (task : Nat) (a : Acquired) (l2 : OLAPLane),
      l.release conn (.ok newConn) = (.admitted task a, l2) →
      ∃ w pre post, nextWaiter l.waiters = some w ∧ w.task = task ∧
        l.waiters = pre ++ w :: post ∧
        (∀ v ∈ pre, v.priority < w.priority) ∧ (∀ v ∈ post, v.priority ≤ w.priority) ∧
        l2.waiters = l.waiters.erase w) ∧
    (let l0 : OLAPLane :=
        { c := { db := { handedOut := [] }, metaSem := { size := 1, cur := 0 },
                 olapSem := { capacity := 1, inUse := 0 } },
          waiters := [] }
      let s1 := l0.acquire 1 1 (.ok 101)
      let s2 := s1.2.acquire 2 1 (.ok 102)
      let s3 := s2.2.acquire 3 5 (.ok 103)
      let s4 := s3.2.release 101 (.ok 103)
      let s5 := s4.2.release 103 (.ok 102)
      s1.1 = .admitted 1 { conn := some 101, release := some (.olapRelease 101), err := none } ∧
      s2.1 = .queued 2 ∧
      s3.1 = .queued 3 ∧
      s3.2.waiters = [{ task := 2, priority := 1 }, { task := 3, priority := 5 }] ∧
      s4.1 = .admitted 3 { conn := some 103, release := some (.olapRelease 103), err := none } ∧
      s4.2.waiters = [{ task := 2, priority := 1 }] ∧
      s5.1 = .admitted 2 { conn := some 102, release := some (.olapRelease 102), err := none } ∧
      s5.2.waiters = [] ∧
      s5.2.c.olapSem.inUse = 1) := by
  refine ⟨?_, by decide⟩
  intro l conn newConn task a l2 h
  unfold OLAPLane.release at h
  cases hrel : (ReleaseFunc.olapRelease conn).call l.c with
  | panics msg => rw [hrel] at h; simp at h
  | blocks => rw [hrel] at h; simp at h
  | returns e c =>
    rw [hrel] at h
    simp only at h
    cases hn : nextWaiter l.waiters with
    | none => rw [hn] at h; simp at h
    | some w =>
      rw [hn] at h
      simp only at h
      cases hacq : acquireOLAPConn { conn := none, err := none } w.priority (.ok newConn) c with
      | panics msg => rw [hacq] at h; simp at h
      | blocks => rw [hacq] at h; simp at h
      | returns a2 c2 =>
        rw [hacq] at h
        simp only [Prod.mk.injEq, Admission.admitted.injEq] at h
        obtain ⟨⟨ht, _⟩, hl2⟩ := h
        obtain ⟨pre, post, hws, hpre, hpost⟩ := nextWaiter_spec l.waiters w hn
        exact ⟨w, pre, post, rfl, ht, hws, hpre, hpost, by rw [← hl2]⟩

/-- Witness of `olap_admission_by_priority`: capacity 1, task 1 holds
connection 101, task 2 waits at priority 1 and task 3 at priority 5; the
release admits task 3. -/
theorem olap_admission_by_priority_witness :
    ∃ w pre post,
      nextWaiter [{ task := 2, priority := 1 }, { task := 3, priority := 5 }] = some w ∧
      w.task = 3 ∧
      [({ task := 2, priority := 1 } : Waiter), { task := 3, priority := 5 }] = pre ++ w :: post ∧
      (∀ v ∈ pre, v.priority < w.priority) ∧ (∀ v ∈ post, v.priority ≤ w.priority) ∧
      ([{ task := 2, priority := 1 }] : List Waiter)
        = [({ task := 2, priority := 1 } : Waiter), { task := 3, priority := 5 }].erase w :=
  olap_admission_by_priority.1
    { c := { db := { handedOut := [101] }, metaSem := { size := 1, cur := 0 },
             olapSem := { capacity := 1, inUse := 1 } },
      waiters := [{ task := 2, priority := 1 }, { task := 3, priority := 5 }] }
    101 103 3 { conn := some 103, release := some (.olapRelease 103), err := none }
    { c := { db := { handedOut := [103] }, metaSem := { size := 1, cur := 0 },
             olapSem := { capacity := 1, inUse := 1 } },
      waiters := [{ task := 2, priority := 1 }] }
    (by decide)

end duckdb
